import Mathlib

/-!
# ZeroClaw Zephyr HAL: framing and dispatch

A shallow embedding of `firmware/zeroclaw-zephyr/src/main.c`.

* Bytes (`uint8_t`) are natural numbers below 256; a store into a byte keeps
  the low 8 bits (`% 256`).
* `int` values are integers; a store of an `int` into the `uint8_t` status
  field keeps the low 8 bits (`to_u8`).
* The packed `struct zeroclaw_command` is a window of 1033 raw bytes
  (`cmd_ptr`), and `cmd` is the typed view on those bytes.  The byte order of
  the multi-byte fields is the target's: `be = true` for a big-endian target,
  `be = false` for a little-endian one.
* The Zephyr driver calls (`gpio_pin_get`, `gpio_pin_set`,
  `sensor_sample_fetch`, `sensor_channel_get`) are not part of the program;
  their results are fields of `Periph`, and every call is recorded in a trace.
* The packed `struct zeroclaw_response` is read by `uart_tx` as raw bytes
  (`resp_to_bytes`); `resp` lives across the iterations of
  `cmd_processor_thread`.
* The kernel queue `cmd_msgq` is a bounded FIFO of 10 slots (`k_msgq_put`).
-/

namespace ZeroClaw

/-! ## Protocol constants -/

/-- The constant `ZEROCLAW_MAGIC`, ASCII "ZERO". -/
def ZEROCLAW_MAGIC : Nat := 0x5A45524F

/-- The constant `MAX_COMMAND_SIZE`. -/
def MAX_COMMAND_SIZE : Nat := 1024

/-- The constant `MAX_RESPONSE_SIZE`. -/
def MAX_RESPONSE_SIZE : Nat := 2048

/-- Command types of `enum zeroclaw_cmd_type`. -/
def CMD_GPIO_READ : Nat := 0x01
/-- Command type GPIO_WRITE. -/
def CMD_GPIO_WRITE : Nat := 0x02
/-- Command type SENSOR_READ. -/
def CMD_SENSOR_READ : Nat := 0x03
/-- Command type DEVICE_INFO. -/
def CMD_DEVICE_INFO : Nat := 0x04
/-- Command type HEALTH_CHECK. -/
def CMD_HEALTH_CHECK : Nat := 0x05
/-- Command type CODE_EXEC: declared in the enum, handled nowhere. -/
def CMD_CODE_EXEC : Nat := 0x06

/-- Zephyr `errno.h`: no such device. -/
def ENODEV : Int := 19
/-- Zephyr `errno.h`: invalid argument. -/
def EINVAL : Int := 22
/-- Zephyr `errno.h`: function not implemented. -/
def ENOSYS : Int := 88

/-- Conversion of an `int` to `uint8_t`: the low 8 bits. -/
def to_u8 (x : Int) : Nat := (x % 256).toNat

/-- Conversion of a `size_t` to `uint16_t`: the low 16 bits. -/
def to_u16 (x : Nat) : Nat := x % 65536

/-! ## Multi-byte fields of the packed structures -/

/-- A `uint32_t` read from four consecutive bytes in memory order. -/
def load_u32 (be : Bool) (b0 b1 b2 b3 : Nat) : Nat :=
  if be then b0 * 16777216 + b1 * 65536 + b2 * 256 + b3
  else b0 + b1 * 256 + b2 * 65536 + b3 * 16777216

/-- A `uint16_t` read from two consecutive bytes in memory order. -/
def load_u16 (be : Bool) (b0 b1 : Nat) : Nat :=
  if be then b0 * 256 + b1 else b0 + b1 * 256

/-- The four bytes of a `uint32_t` in memory order. -/
def store_u32 (be : Bool) (v : Nat) : List Nat :=
  if be then [v / 16777216 % 256, v / 65536 % 256, v / 256 % 256, v % 256]
  else [v % 256, v / 256 % 256, v / 65536 % 256, v / 16777216 % 256]

/-- The two bytes of a `uint16_t` in memory order. -/
def store_u16 (be : Bool) (v : Nat) : List Nat :=
  if be then [v / 256 % 256, v % 256] else [v % 256, v / 256 % 256]

/-! ## Packets -/

/-- The typed fields of `struct zeroclaw_command` (packed: magic at offset 0,
cmd_type at 4, data_len at 5, data at 7, checksum at 1031). -/
structure zeroclaw_command where
  magic : Nat
  cmd_type : Nat
  data_len : Nat
  data : Nat → Nat
  checksum : Nat

/-- The size of the packed struct: `sizeof(struct zeroclaw_command)` = 1033. -/
def sizeof_zeroclaw_command : Nat := 4 + 1 + 2 + MAX_COMMAND_SIZE + 2

/-- The view `cmd` on the raw bytes `cmd_ptr = (uint8_t*)&cmd`. -/
def cmd_of_bytes (be : Bool) (cmd_ptr : Nat → Nat) : zeroclaw_command :=
  { magic := load_u32 be (cmd_ptr 0) (cmd_ptr 1) (cmd_ptr 2) (cmd_ptr 3)
    cmd_type := cmd_ptr 4
    data_len := load_u16 be (cmd_ptr 5) (cmd_ptr 6)
    data := fun i => cmd_ptr (7 + i)
    checksum := load_u16 be (cmd_ptr 1031) (cmd_ptr 1032) }

/-! ## The framer loop of `uart_thread` -/

/-- The local variables of `uart_thread` that live across loop iterations:
the raw bytes of `cmd` and the counter `bytes_received`. -/
structure FramerState where
  cmd_ptr : Nat → Nat
  bytes_received : Nat

/-- The store `cmd_ptr[i] = byte`. -/
def poke (cmd_ptr : Nat → Nat) (i byte : Nat) : Nat → Nat :=
  fun j => if j = i then byte % 256 else cmd_ptr j

/-- The test that guards `k_msgq_put`, evaluated after the received byte has
been stored and `bytes_received` incremented to `n`. -/
def complete (be : Bool) (cmd_ptr : Nat → Nat) (n : Nat) : Bool :=
  decide (n ≥ sizeof_zeroclaw_command - MAX_COMMAND_SIZE) &&
  (decide ((cmd_of_bytes be cmd_ptr).magic = ZEROCLAW_MAGIC) &&
   decide (n ≥ sizeof_zeroclaw_command - MAX_COMMAND_SIZE + (cmd_of_bytes be cmd_ptr).data_len))

/-- One iteration of the `while (1)` loop of `uart_thread` in which `uart_rx`
returned 1 with `byte`: the new state, and the commands handed to
`k_msgq_put` in this iteration (none or one). -/
def uart_step (be : Bool) (s : FramerState) (byte : Nat) :
    FramerState × List zeroclaw_command :=
  let buf := poke s.cmd_ptr s.bytes_received byte
  let n := s.bytes_received + 1
  let put := complete be buf n
  let n1 := if put then 0 else n
  let n2 := if n1 ≥ sizeof_zeroclaw_command then 0 else n1
  ({ cmd_ptr := buf, bytes_received := n2 }, if put then [cmd_of_bytes be buf] else [])

/-- The loop of `uart_thread` run over the bytes delivered by `uart_rx`, in
order: the final state and the commands handed to `k_msgq_put`, in order. -/
def uart_thread (be : Bool) (s : FramerState) : List Nat → FramerState × List zeroclaw_command
  | [] => (s, [])
  | byte :: rest =>
    ((uart_thread be (uart_step be s byte).1 rest).1,
     (uart_step be s byte).2 ++ (uart_thread be (uart_step be s byte).1 rest).2)

/-- The state on entry to the loop: `bytes_received = 0`, and `cmd` holds
whatever the stack held. -/
def uart_init (stack : Nat → Nat) : FramerState :=
  { cmd_ptr := stack, bytes_received := 0 }

/-! ## Commands on the wire -/

/-- The four bytes of the magic as they appear on the wire. -/
def magic_bytes (be : Bool) : List Nat := store_u32 be ZEROCLAW_MAGIC

/-- The seven header bytes: magic, cmd_type, data_len. -/
def encode_header (be : Bool) (cmd_type data_len : Nat) : List Nat :=
  magic_bytes be ++ [cmd_type] ++ store_u16 be data_len

/-- A command on the wire: header, payload, two checksum bytes. -/
def encode_command (be : Bool) (cmd_type : Nat) (payload : List Nat) (c0 c1 : Nat) : List Nat :=
  encode_header be cmd_type payload.length ++ payload ++ [c0, c1]

/-- Every element of the stream is a byte. -/
def all_bytes (l : List Nat) : Prop := ∀ b ∈ l, b < 256

instance (l : List Nat) : Decidable (all_bytes l) := by
  unfold all_bytes; infer_instance

/-- Consecutive stores `cmd_ptr[c] = b0`, `cmd_ptr[c+1] = b1`, ... : the
buffer after a run of iterations none of which resets the counter. -/
def fill (cmd_ptr : Nat → Nat) (c : Nat) : List Nat → Nat → Nat
  | [] => cmd_ptr
  | b :: bs => fill (poke cmd_ptr c b) (c + 1) bs

/-- At the top of the loop: the counter is below the size of the struct, and a
buffer that holds a matching magic and at least the header holds fewer than
`9 + data_len` bytes. -/
def framer_inv (be : Bool) (s : FramerState) : Prop :=
  s.bytes_received < 1033 ∧
  (7 ≤ s.bytes_received → (cmd_of_bytes be s.cmd_ptr).magic = ZEROCLAW_MAGIC →
    s.bytes_received < 9 + (cmd_of_bytes be s.cmd_ptr).data_len)

/-! ## The dispatcher -/

/-- Zephyr `struct sensor_value`: two `int32_t`. -/
structure sensor_value where
  val1 : Int
  val2 : Int

/-- The four bytes of an `int32_t` (two's complement) in memory order. -/
def store_i32 (be : Bool) (v : Int) : List Nat := store_u32 be (v % 4294967296).toNat

/-- The object representation of a `struct sensor_value`: `sizeof` is 8. -/
def sensor_value_bytes (be : Bool) (v : sensor_value) : List Nat :=
  store_i32 be v.val1 ++ store_i32 be v.val2

/-- The typed fields of `struct zeroclaw_response`. -/
structure zeroclaw_response where
  magic : Nat
  status : Nat
  data_len : Nat
  data : Nat → Nat
  checksum : Nat

/-- The global device handles (`true`: not NULL) and what the Zephyr drivers
answer when called. -/
structure Periph where
  led_dev : Bool
  uart_dev : Bool
  sensor_dev : Bool
  gpio_pin_get : Nat → Int
  gpio_pin_set : Nat → Nat → Int
  sensor_sample_fetch : Int
  sensor_channel_get : Int × sensor_value

/-- The calls made while a command is processed: the wrappers of this program
and the Zephyr driver functions behind them. -/
inductive Call where
  | zeroclaw_gpio_read (pin : Nat)
  | gpio_pin_get (pin : Nat)
  | zeroclaw_gpio_write (pin value : Nat)
  | gpio_pin_set (pin value : Nat)
  | zeroclaw_sensor_read (sensor_id : Nat)
  | sensor_sample_fetch
  | sensor_channel_get
  deriving DecidableEq, Repr

/-- The wrapper `zeroclaw_gpio_read(pin, &value)`: the return value, the
content of `value` afterwards, and the calls made. -/
def zeroclaw_gpio_read (env : Periph) (pin : Nat) (value : Nat) : Int × Nat × List Call :=
  if !env.led_dev then (-ENODEV, value, [Call.zeroclaw_gpio_read pin])
  else
    let ret := env.gpio_pin_get pin
    if ret < 0 then (ret, value, [Call.zeroclaw_gpio_read pin, Call.gpio_pin_get pin])
    else (0, to_u8 ret, [Call.zeroclaw_gpio_read pin, Call.gpio_pin_get pin])

/-- The wrapper `zeroclaw_gpio_write(pin, value)`: the return value and the
calls made. -/
def zeroclaw_gpio_write (env : Periph) (pin value : Nat) : Int × List Call :=
  if !env.led_dev then (-ENODEV, [Call.zeroclaw_gpio_write pin value])
  else (env.gpio_pin_set pin value,
        [Call.zeroclaw_gpio_write pin value, Call.gpio_pin_set pin value])

/-- The wrapper `zeroclaw_sensor_read(sensor_id, &val)`: the return value, the
content of `val` afterwards, and the calls made. -/
def zeroclaw_sensor_read (env : Periph) (sensor_id : Nat) (val : sensor_value) :
    Int × sensor_value × List Call :=
  if !env.sensor_dev then (-ENODEV, val, [Call.zeroclaw_sensor_read sensor_id])
  else
    let ret := env.sensor_sample_fetch
    if ret ≠ 0 then
      (ret, val, [Call.zeroclaw_sensor_read sensor_id, Call.sensor_sample_fetch])
    else
      (env.sensor_channel_get.1, env.sensor_channel_get.2,
       [Call.zeroclaw_sensor_read sensor_id, Call.sensor_sample_fetch, Call.sensor_channel_get])

/-- What `strncpy(dst, src, n)` stores into `dst[0..n)`: the string, cut at
`n` bytes, padded with NULs up to `n`. -/
def strncpy_bytes (src : List Nat) (n : Nat) : List Nat :=
  src.take n ++ List.replicate (n - src.length) 0

/-- The function `process_zeroclaw_command(cmd, resp)`: `resp` on entry is
whatever the response buffer held; the result is `resp` on return and the
calls made.  `board` is the string `CONFIG_BOARD` (without its NUL). -/
def process_zeroclaw_command (env : Periph) (be : Bool) (board : List Nat)
    (cmd : zeroclaw_command) (resp : zeroclaw_response) : zeroclaw_response × List Call :=
  let resp := { resp with magic := ZEROCLAW_MAGIC, status := 0, data_len := 0 }
  if cmd.cmd_type = CMD_GPIO_READ then
    if cmd.data_len < 1 then
      ({ resp with status := to_u8 (-EINVAL) }, [])
    else
      let pin := cmd.data 0
      let r := zeroclaw_gpio_read env pin 0
      if r.1 ≠ 0 then
        ({ resp with status := to_u8 r.1 }, r.2.2)
      else
        ({ resp with data := poke resp.data 0 r.2.1, data_len := 1 }, r.2.2)
  else if cmd.cmd_type = CMD_GPIO_WRITE then
    if cmd.data_len < 2 then
      ({ resp with status := to_u8 (-EINVAL) }, [])
    else
      let pin := cmd.data 0
      let value := cmd.data 1
      let r := zeroclaw_gpio_write env pin value
      ({ resp with status := to_u8 r.1 }, r.2)
  else if cmd.cmd_type = CMD_SENSOR_READ then
    let r := zeroclaw_sensor_read env 0 ⟨0, 0⟩
    if r.1 ≠ 0 then
      ({ resp with status := to_u8 r.1 }, r.2.2)
    else
      ({ resp with data := fill resp.data 0 (sensor_value_bytes be r.2.1), data_len := 8 }, r.2.2)
  else if cmd.cmd_type = CMD_DEVICE_INFO then
    ({ resp with data := fill resp.data 0 (strncpy_bytes board (MAX_RESPONSE_SIZE - 1)),
                 data_len := to_u16 board.length }, [])
  else if cmd.cmd_type = CMD_HEALTH_CHECK then
    ({ resp with data := poke resp.data 0 0x01, data_len := 1 }, [])
  else
    ({ resp with status := to_u8 (-ENOSYS) }, [])

/-- The header fields of the commands in a list, for comparison by
evaluation. -/
def headers (l : List zeroclaw_command) : List (Nat × Nat × Nat) :=
  l.map (fun c => (c.magic, c.cmd_type, c.data_len))

/-- A response buffer before its first use, for evaluation. -/
def resp_zero : zeroclaw_response :=
  { magic := 0, status := 0, data_len := 0, data := fun _ => 0, checksum := 0 }

/-- A board for evaluation: LED device present, no sensor, pin reads give
`level`, pin writes give `wr`. -/
def board_env (level wr : Int) : Periph :=
  { led_dev := true, uart_dev := true, sensor_dev := false
    gpio_pin_get := fun _ => level
    gpio_pin_set := fun _ _ => wr
    sensor_sample_fetch := 0
    sensor_channel_get := (0, ⟨0, 0⟩) }

/-- A command given by its type and payload, for evaluation. -/
def mk_command (cmd_type : Nat) (payload : List Nat) : zeroclaw_command :=
  { magic := ZEROCLAW_MAGIC, cmd_type := cmd_type, data_len := payload.length
    data := fun i => payload.getD i 0, checksum := 0 }

/-! ## The responder: `cmd_processor_thread` -/

/-- The size of the packed struct: `sizeof(struct zeroclaw_response)` = 2057. -/
def sizeof_zeroclaw_response : Nat := 4 + 1 + 2 + MAX_RESPONSE_SIZE + 2

/-- The raw bytes `(uint8_t*)&resp` of the packed struct: magic at offset 0,
status at 4, data_len at 5, data at 7, checksum at 2055. -/
def resp_to_bytes (be : Bool) (resp : zeroclaw_response) (i : Nat) : Nat :=
  if i < 4 then (store_u32 be resp.magic).getD i 0
  else if i = 4 then resp.status
  else if i < 7 then (store_u16 be resp.data_len).getD (i - 5) 0
  else if i < 7 + MAX_RESPONSE_SIZE then resp.data (i - 7)
  else (store_u16 be resp.checksum).getD (i - (7 + MAX_RESPONSE_SIZE)) 0

/-- What `uart_tx(uart_dev, buf, len, ...)` hands to the UART: the bytes
`buf[0..len)`. -/
def uart_tx (buf : Nat → Nat) (len : Nat) : List Nat := (List.range len).map buf

/-- The frame of the call `uart_tx(uart_dev, (uint8_t*)&resp,
sizeof(resp) - MAX_RESPONSE_SIZE + resp.data_len, SYS_FOREVER_US)`. -/
def tx_frame (be : Bool) (resp : zeroclaw_response) : List Nat :=
  uart_tx (resp_to_bytes be resp) (sizeof_zeroclaw_response - MAX_RESPONSE_SIZE + resp.data_len)

/-- The loop of `cmd_processor_thread` run over the commands that `k_msgq_get`
delivers, in order.  `resp` lives across iterations; on entry it holds
whatever the stack held.  The result is `resp` at the end, the calls made and
the frames handed to `uart_tx`, in order. -/
def cmd_processor_thread (env : Periph) (be : Bool) (board : List Nat)
    (resp : zeroclaw_response) :
    List zeroclaw_command → zeroclaw_response × List Call × List (List Nat)
  | [] => (resp, [], [])
  | cmd :: rest =>
    ((cmd_processor_thread env be board
        (process_zeroclaw_command env be board cmd resp).1 rest).1,
     (process_zeroclaw_command env be board cmd resp).2 ++
       (cmd_processor_thread env be board
        (process_zeroclaw_command env be board cmd resp).1 rest).2.1,
     (if env.uart_dev then [tx_frame be (process_zeroclaw_command env be board cmd resp).1]
      else []) ++
       (cmd_processor_thread env be board
        (process_zeroclaw_command env be board cmd resp).1 rest).2.2)

/-! ## The command queue -/

/-- Zephyr `errno.h`: no message of the desired type; what `k_msgq_put`
returns when it gives up without waiting. -/
def ENOMSG : Int := 35

/-- The number of slots of `K_MSGQ_DEFINE(cmd_msgq, ..., 10, 4)`. -/
def CMD_MSGQ_MAX_MSGS : Nat := 10

/-- Modelled from the spec: the kernel queue behind `cmd_msgq` is not part of
the program.  Section 4.2 has it as a bounded FIFO of fixed capacity whose
enqueue is non-blocking: if the queue is full the new packet is dropped and the
condition is signaled to the caller.  This is the call
`k_msgq_put(&cmd_msgq, &cmd, K_NO_WAIT)`: the queue afterwards, oldest first,
and the return code, 0 or `-ENOMSG`. -/
def k_msgq_put (q : List zeroclaw_command) (cmd : zeroclaw_command) :
    List zeroclaw_command × Int :=
  if q.length < CMD_MSGQ_MAX_MSGS then (q ++ [cmd], 0) else (q, -ENOMSG)

/-- One iteration of the loop of `uart_thread` with the queue in view: the new
state of the loop, the queue afterwards, and the return codes of
`k_msgq_put` in this iteration.  The program discards the return code; it is
listed here only as a record of the call. -/
def uart_step_msgq (be : Bool) (s : FramerState) (q : List zeroclaw_command) (byte : Nat) :
    FramerState × List zeroclaw_command × List Int :=
  let buf := poke s.cmd_ptr s.bytes_received byte
  let n := s.bytes_received + 1
  let put := complete be buf n
  let n1 := if put then 0 else n
  let n2 := if n1 ≥ sizeof_zeroclaw_command then 0 else n1
  ({ cmd_ptr := buf, bytes_received := n2 },
   if put then (k_msgq_put q (cmd_of_bytes be buf)).1 else q,
   if put then [(k_msgq_put q (cmd_of_bytes be buf)).2] else [])

/-- The loop of `uart_thread` with the queue in view, no `k_msgq_get`
happening meanwhile: final state, final queue, and the return codes of the
`k_msgq_put` calls in order. -/
def uart_thread_msgq (be : Bool) (s : FramerState) (q : List zeroclaw_command) :
    List Nat → FramerState × List zeroclaw_command × List Int
  | [] => (s, q, [])
  | byte :: rest =>
    ((uart_thread_msgq be (uart_step_msgq be s q byte).1 (uart_step_msgq be s q byte).2.1 rest).1,
     (uart_thread_msgq be (uart_step_msgq be s q byte).1 (uart_step_msgq be s q byte).2.1
        rest).2.1,
     (uart_step_msgq be s q byte).2.2 ++
       (uart_thread_msgq be (uart_step_msgq be s q byte).1 (uart_step_msgq be s q byte).2.1
        rest).2.2)

/-! ## Sequences of commands on the wire -/

/-- A command as the host sends it: type, payload and the two checksum
bytes. -/
structure wire_command where
  cmd_type : Nat
  payload : List Nat
  c0 : Nat
  c1 : Nat

/-- A well-formed command: a byte for the type, at most 1024 payload bytes. -/
def well_formed (w : wire_command) : Prop :=
  w.cmd_type < 256 ∧ w.payload.length ≤ 1024 ∧ all_bytes w.payload

/-- The bytes of one command on the wire. -/
def encode_wire (be : Bool) (w : wire_command) : List Nat :=
  encode_command be w.cmd_type w.payload w.c0 w.c1

/-- Commands sent back to back. -/
def encode_all (be : Bool) : List wire_command → List Nat
  | [] => []
  | w :: ws => encode_wire be w ++ encode_all be ws

/-- The command packet `pkt` carries the command `w`: magic, cmd_type,
data_len and the first data_len data bytes are the encoded ones. -/
def carries (w : wire_command) (pkt : zeroclaw_command) : Prop :=
  pkt.magic = ZEROCLAW_MAGIC ∧ pkt.cmd_type = w.cmd_type ∧ pkt.data_len = w.payload.length ∧
  ∀ i (hi : i < w.payload.length), pkt.data i = w.payload[i]

instance (w : wire_command) : Decidable (well_formed w) := by
  unfold well_formed; infer_instance

/-- A run of `k_msgq_put` calls with no `k_msgq_get` in between: the queue
afterwards and the return codes, in order. -/
def msgq_put_all (q : List zeroclaw_command) :
    List zeroclaw_command → List zeroclaw_command × List Int
  | [] => (q, [])
  | c :: cs =>
    ((msgq_put_all (k_msgq_put q c).1 cs).1,
     (k_msgq_put q c).2 :: (msgq_put_all (k_msgq_put q c).1 cs).2)

/-- The `int` that the dispatched operation yields: the code of the failed
argument check, the return value of the wrapper, `-ENOSYS` for an unknown
command type, 0 where nothing can fail. -/
def dispatch_ret (env : Periph) (cmd : zeroclaw_command) : Int :=
  if cmd.cmd_type = CMD_GPIO_READ then
    if cmd.data_len < 1 then -EINVAL else (zeroclaw_gpio_read env (cmd.data 0) 0).1
  else if cmd.cmd_type = CMD_GPIO_WRITE then
    if cmd.data_len < 2 then -EINVAL else (zeroclaw_gpio_write env (cmd.data 0) (cmd.data 1)).1
  else if cmd.cmd_type = CMD_SENSOR_READ then (zeroclaw_sensor_read env 0 ⟨0, 0⟩).1
  else if cmd.cmd_type = CMD_DEVICE_INFO then 0
  else if cmd.cmd_type = CMD_HEALTH_CHECK then 0
  else -ENOSYS

/-- A board for evaluation: LED device and sensor present, `sensor_sample_fetch`
gives `fetch`, `sensor_channel_get` gives `get` and the reading `v`. -/
def sensor_env (fetch get : Int) (v : sensor_value) : Periph :=
  { led_dev := true, uart_dev := true, sensor_dev := true
    gpio_pin_get := fun _ => 0
    gpio_pin_set := fun _ _ => 0
    sensor_sample_fetch := fetch
    sensor_channel_get := (get, v) }

/-- A response buffer given by its fields and the first bytes of `data`, for
evaluation. -/
def mk_response (status : Nat) (data_len : Nat) (data : List Nat) : zeroclaw_response :=
  { magic := ZEROCLAW_MAGIC, status := status, data_len := data_len
    data := fun i => data.getD i 0, checksum := 0 }

/-! ## Basic facts about stores -/

theorem poke_ne {buf : Nat → Nat} {i b j : Nat} (h : j ≠ i) : poke buf i b j = buf j := by
  simp [poke, h]

theorem poke_eq (buf : Nat → Nat) (i b : Nat) : poke buf i b i = b % 256 := by
  simp [poke]

theorem fill_lt : ∀ (L : List Nat) (buf : Nat → Nat) (c j : Nat), j < c → fill buf c L j = buf j
  | [], _, _, _, _ => rfl
  | b :: bs, buf, c, j, h => by
    simp only [fill]
    rw [fill_lt bs _ _ _ (by omega)]
    exact poke_ne (by omega)

theorem fill_get : ∀ (L : List Nat) (buf : Nat → Nat) (c j x : Nat),
    L[j]? = some x → fill buf c L (c + j) = x % 256
  | [], _, _, _, _, h => by simp at h
  | b :: bs, buf, c, 0, x, h => by
    simp at h
    subst h
    simp only [fill, Nat.add_zero]
    rw [fill_lt _ _ _ _ (by omega)]
    exact poke_eq _ _ _
  | b :: bs, buf, c, j + 1, x, h => by
    simp at h
    simp only [fill]
    have := fill_get bs (poke buf c b) (c + 1) j x h
    rw [show c + (j + 1) = c + 1 + j by omega]
    exact this

theorem fill_ge : ∀ (L : List Nat) (buf : Nat → Nat) (c j : Nat),
    c + L.length ≤ j → fill buf c L j = buf j
  | [], _, _, _, _ => rfl
  | b :: bs, buf, c, j, h => by
    simp only [List.length_cons] at h
    simp only [fill]
    rw [fill_ge bs _ _ _ (by omega)]
    exact poke_ne (by omega)

/-! ## Basic facts about the loop -/

theorem uart_thread_append (be : Bool) : ∀ (l1 l2 : List Nat) (s : FramerState),
    uart_thread be s (l1 ++ l2) =
      ((uart_thread be (uart_thread be s l1).1 l2).1,
       (uart_thread be s l1).2 ++ (uart_thread be (uart_thread be s l1).1 l2).2)
  | [], l2, s => by simp [uart_thread]
  | b :: bs, l2, s => by
    rw [List.cons_append]
    simp only [uart_thread]
    rw [uart_thread_append be bs l2]
    simp [List.append_assoc]

theorem complete_false_of_lt9 (be : Bool) (buf : Nat → Nat) (n : Nat) (h : n < 9) :
    complete be buf n = false := by
  simp only [complete, sizeof_zeroclaw_command, MAX_COMMAND_SIZE]
  by_cases h7 : n ≥ 7
  · have : ¬ (n ≥ 4 + 1 + 2 + 1024 + 2 - 1024 + (cmd_of_bytes be buf).data_len) := by omega
    simp [this]
  · have : ¬ (n ≥ 4 + 1 + 2 + 1024 + 2 - 1024) := by omega
    simp [this]

theorem complete_false_of_magic (be : Bool) (buf : Nat → Nat) (n : Nat)
    (h : (cmd_of_bytes be buf).magic ≠ ZEROCLAW_MAGIC) : complete be buf n = false := by
  simp [complete, h]

theorem complete_false_of_short (be : Bool) (buf : Nat → Nat) (n : Nat)
    (h : n < 9 + (cmd_of_bytes be buf).data_len) : complete be buf n = false := by
  have : ¬ (n ≥ sizeof_zeroclaw_command - MAX_COMMAND_SIZE + (cmd_of_bytes be buf).data_len) := by
    simp only [sizeof_zeroclaw_command, MAX_COMMAND_SIZE]; omega
  simp [complete, this]

theorem complete_iff (be : Bool) (buf : Nat → Nat) (n : Nat) :
    complete be buf n = true ↔
      (cmd_of_bytes be buf).magic = ZEROCLAW_MAGIC ∧ 9 + (cmd_of_bytes be buf).data_len ≤ n := by
  simp only [complete, sizeof_zeroclaw_command, MAX_COMMAND_SIZE, Bool.and_eq_true,
    decide_eq_true_eq]
  constructor
  · rintro ⟨_, h2, h3⟩; exact ⟨h2, by omega⟩
  · rintro ⟨h2, h3⟩; exact ⟨by omega, h2, by omega⟩

theorem uart_step_quiet (be : Bool) (s : FramerState) (b : Nat)
    (h : complete be (poke s.cmd_ptr s.bytes_received b) (s.bytes_received + 1) = false) :
    uart_step be s b =
      (⟨poke s.cmd_ptr s.bytes_received b,
        if s.bytes_received + 1 ≥ 1033 then 0 else s.bytes_received + 1⟩, []) := by
  simp [uart_step, h, sizeof_zeroclaw_command, MAX_COMMAND_SIZE]

theorem uart_step_put (be : Bool) (s : FramerState) (b : Nat)
    (h : complete be (poke s.cmd_ptr s.bytes_received b) (s.bytes_received + 1) = true) :
    uart_step be s b =
      (⟨poke s.cmd_ptr s.bytes_received b, 0⟩,
       [cmd_of_bytes be (poke s.cmd_ptr s.bytes_received b)]) := by
  simp [uart_step, h, sizeof_zeroclaw_command, MAX_COMMAND_SIZE]

/-- A run of iterations in none of which the completeness test succeeds
enqueues nothing and only fills the buffer; the counter wraps to 0 when it
reaches 1033. -/
theorem uart_thread_quiet (be : Bool) : ∀ (L : List Nat) (s : FramerState),
    s.bytes_received < 1033 → s.bytes_received + L.length ≤ 1033 →
    (∀ k, k < L.length →
      complete be (fill s.cmd_ptr s.bytes_received (L.take (k + 1)))
        (s.bytes_received + k + 1) = false) →
    uart_thread be s L =
      (⟨fill s.cmd_ptr s.bytes_received L, (s.bytes_received + L.length) % 1033⟩, [])
  | [], s, h1, _, _ => by
    cases s
    simp only [uart_thread, fill, List.length_nil, Nat.add_zero]
    rw [Nat.mod_eq_of_lt h1]
  | b :: bs, s, h1, h2, h3 => by
    simp only [List.length_cons] at h2
    have h0 := h3 0 (by simp)
    simp only [List.take_succ_cons, List.take_zero, fill, Nat.add_zero] at h0
    simp only [uart_thread, uart_step_quiet be s b h0, fill, List.length_cons]
    by_cases hc : s.bytes_received + 1 ≥ 1033
    · have hbs : bs = [] := by
        apply List.eq_nil_of_length_eq_zero; omega
      subst hbs
      simp only [hc, if_true, uart_thread, fill, List.length_nil]
      have : s.bytes_received + (0 + 1) = 1033 := by omega
      simp [this]
    · simp only [hc, if_false]
      have ih := uart_thread_quiet be bs ⟨poke s.cmd_ptr s.bytes_received b, s.bytes_received + 1⟩
        (by simp only; omega) (by simp only; omega)
        (by
          intro k hk
          have := h3 (k + 1) (by simp only [List.length_cons]; omega)
          simp only [List.take_succ_cons, fill] at this
          simp only
          rw [show s.bytes_received + 1 + k + 1 = s.bytes_received + (k + 1) + 1 by omega]
          exact this)
      rw [ih]
      simp only [List.append_nil]
      rw [show s.bytes_received + 1 + bs.length = s.bytes_received + (bs.length + 1) by omega]

theorem fill_append : ∀ (l1 l2 : List Nat) (buf : Nat → Nat) (c : Nat),
    fill buf c (l1 ++ l2) = fill (fill buf c l1) (c + l1.length) l2
  | [], _, _, _ => by simp [fill]
  | b :: bs, l2, buf, c => by
    rw [List.cons_append]
    simp only [fill, List.length_cons]
    rw [fill_append bs l2, show c + 1 + bs.length = c + (bs.length + 1) by omega]

/-! ## The header on the wire and in the buffer -/

theorem load_magic_iff (be : Bool) (a b c d : Nat) (ha : a < 256) (hb : b < 256)
    (hc : c < 256) (hd : d < 256) :
    load_u32 be a b c d = ZEROCLAW_MAGIC ↔ [a, b, c, d] = magic_bytes be := by
  cases be <;>
    simp only [load_u32, magic_bytes, store_u32, ZEROCLAW_MAGIC, Bool.false_eq_true, if_false,
      if_true, List.cons.injEq, and_true] <;>
    omega

theorem encode_header_length (be : Bool) (ct dl : Nat) : (encode_header be ct dl).length = 7 := by
  cases be <;> simp [encode_header, magic_bytes, store_u32, store_u16]

/-- Once the seven header bytes of a command are in the buffer, the typed
view shows the encoded magic, cmd_type and data_len. -/
theorem header_fields (be : Bool) (buf : Nat → Nat) (ct dl : Nat) (hct : ct < 256)
    (hdl : dl < 65536) :
    (cmd_of_bytes be (fill buf 0 (encode_header be ct dl))).magic = ZEROCLAW_MAGIC ∧
    (cmd_of_bytes be (fill buf 0 (encode_header be ct dl))).cmd_type = ct ∧
    (cmd_of_bytes be (fill buf 0 (encode_header be ct dl))).data_len = dl := by
  cases be <;>
    simp only [encode_header, magic_bytes, store_u32, store_u16, ZEROCLAW_MAGIC, cmd_of_bytes,
      load_u32, load_u16, fill, poke, List.cons_append, List.nil_append, Bool.false_eq_true,
      if_false, if_true] <;>
    simp <;> omega

/-- Stores at offsets 7 and above leave the header fields of the view alone. -/
theorem fields_fill_of_ge7 (be : Bool) (buf : Nat → Nat) (c : Nat) (L : List Nat) (hc : 7 ≤ c) :
    (cmd_of_bytes be (fill buf c L)).magic = (cmd_of_bytes be buf).magic ∧
    (cmd_of_bytes be (fill buf c L)).cmd_type = (cmd_of_bytes be buf).cmd_type ∧
    (cmd_of_bytes be (fill buf c L)).data_len = (cmd_of_bytes be buf).data_len := by
  simp only [cmd_of_bytes]
  rw [fill_lt L buf c 0 (by omega), fill_lt L buf c 1 (by omega), fill_lt L buf c 2 (by omega),
    fill_lt L buf c 3 (by omega), fill_lt L buf c 4 (by omega), fill_lt L buf c 5 (by omega),
    fill_lt L buf c 6 (by omega)]
  exact ⟨rfl, rfl, rfl⟩

/-- Stores at offsets 4 and above leave the magic of the view alone. -/
theorem magic_fill_of_ge4 (be : Bool) (buf : Nat → Nat) (c : Nat) (L : List Nat) (hc : 4 ≤ c) :
    (cmd_of_bytes be (fill buf c L)).magic = (cmd_of_bytes be buf).magic := by
  simp only [cmd_of_bytes]
  rw [fill_lt L buf c 0 (by omega), fill_lt L buf c 1 (by omega), fill_lt L buf c 2 (by omega),
    fill_lt L buf c 3 (by omega)]

/-- A stream that starts with a header: while fewer than `9 + data_len` and at
most 1033 bytes have arrived, nothing is enqueued. -/
theorem uart_thread_header_quiet (be : Bool) (s : FramerState) (ct dl : Nat) (X : List Nat)
    (hs : s.bytes_received = 0) (hct : ct < 256) (hdl : dl < 65536)
    (h1 : 7 + X.length < 9 + dl) (h2 : 7 + X.length ≤ 1033) :
    uart_thread be s (encode_header be ct dl ++ X) =
      (⟨fill s.cmd_ptr 0 (encode_header be ct dl ++ X), (7 + X.length) % 1033⟩, []) := by
  have hlen := encode_header_length be ct dl
  have h := uart_thread_quiet be (encode_header be ct dl ++ X) s (by omega)
    (by rw [hs, List.length_append, hlen]; omega)
    (by
      intro k hk
      rw [List.length_append, hlen] at hk
      rw [hs]
      by_cases hk9 : k + 1 < 9
      · exact complete_false_of_lt9 be _ _ (by omega)
      · apply complete_false_of_short
        rw [List.take_append_eq_append_take, hlen, List.take_of_length_le (by omega),
          fill_append, hlen, (fields_fill_of_ge7 be _ _ _ (by omega)).2.2,
          (header_fields be _ ct dl hct hdl).2.2]
        omega)
  rw [h, hs, List.length_append, hlen]
  simp

/-- A well-formed command received from an empty accumulator is enqueued when
its last byte arrives, as the buffer then stands, and the counter returns to
0. -/
theorem uart_thread_command (be : Bool) (s : FramerState) (ct : Nat) (payload : List Nat)
    (c0 c1 : Nat) (hs : s.bytes_received = 0) (hct : ct < 256) (hlen : payload.length ≤ 1024) :
    uart_thread be s (encode_command be ct payload c0 c1) =
      (⟨fill s.cmd_ptr 0 (encode_command be ct payload c0 c1), 0⟩,
       [cmd_of_bytes be (fill s.cmd_ptr 0 (encode_command be ct payload c0 c1))]) := by
  have hh := encode_header_length be ct payload.length
  have e : encode_command be ct payload c0 c1 =
      (encode_header be ct payload.length ++ (payload ++ [c0])) ++ [c1] := by
    simp [encode_command]
  have hl : (payload ++ [c0]).length = payload.length + 1 := by simp
  have hq := uart_thread_header_quiet be s ct payload.length (payload ++ [c0]) hs hct
    (by omega) (by omega) (by omega)
  have hmod : (7 + (payload ++ [c0]).length) % 1033 = 8 + payload.length := by
    rw [hl, Nat.mod_eq_of_lt (by omega)]
    omega
  rw [hmod] at hq
  have hfill : fill s.cmd_ptr 0 (encode_command be ct payload c0 c1) =
      poke (fill s.cmd_ptr 0 (encode_header be ct payload.length ++ (payload ++ [c0])))
        (8 + payload.length) c1 := by
    rw [e, fill_append]
    simp only [fill, List.length_append, hh, List.length_singleton]
    rw [show 0 + (7 + (payload.length + 1)) = 8 + payload.length by omega]
  have hput : complete be (fill s.cmd_ptr 0 (encode_command be ct payload c0 c1))
      (8 + payload.length + 1) = true := by
    rw [complete_iff]
    have e2 : encode_command be ct payload c0 c1 =
        encode_header be ct payload.length ++ (payload ++ [c0, c1]) := by
      simp [encode_command]
    rw [e2, fill_append, hh]
    have hf := fields_fill_of_ge7 be (fill s.cmd_ptr 0 (encode_header be ct payload.length)) (0 + 7)
      (payload ++ [c0, c1]) (by omega)
    have hd := header_fields be s.cmd_ptr ct payload.length hct (by omega)
    rw [hf.1, hf.2.2, hd.1, hd.2.2]
    exact ⟨rfl, by omega⟩
  rw [e, uart_thread_append, hq]
  simp only [uart_thread, List.nil_append, List.append_nil]
  rw [← e]
  have hstep := uart_step_put be
    ⟨fill s.cmd_ptr 0 (encode_header be ct payload.length ++ (payload ++ [c0])),
      8 + payload.length⟩ c1 (by simp only; rw [← hfill]; exact hput)
  simp only at hstep
  rw [hstep, ← hfill]

/-- The typed view of a buffer that holds a well-formed command shows the
encoded magic, cmd_type, data_len and payload. -/
theorem command_fields (be : Bool) (buf : Nat → Nat) (ct : Nat) (payload : List Nat)
    (c0 c1 : Nat) (hct : ct < 256) (hlen : payload.length ≤ 1024) (hp : all_bytes payload) :
    (cmd_of_bytes be (fill buf 0 (encode_command be ct payload c0 c1))).magic = ZEROCLAW_MAGIC ∧
    (cmd_of_bytes be (fill buf 0 (encode_command be ct payload c0 c1))).cmd_type = ct ∧
    (cmd_of_bytes be (fill buf 0 (encode_command be ct payload c0 c1))).data_len
      = payload.length ∧
    ∀ i (hi : i < payload.length),
      (cmd_of_bytes be (fill buf 0 (encode_command be ct payload c0 c1))).data i = payload[i] := by
  have hh := encode_header_length be ct payload.length
  have e2 : encode_command be ct payload c0 c1 =
      encode_header be ct payload.length ++ (payload ++ [c0, c1]) := by
    simp [encode_command]
  have hf := fields_fill_of_ge7 be (fill buf 0 (encode_header be ct payload.length)) (0 + 7)
    (payload ++ [c0, c1]) (by omega)
  have hd := header_fields be buf ct payload.length hct (by omega)
  rw [e2, fill_append, hh, hf.1, hf.2.1, hf.2.2, hd.1, hd.2.1, hd.2.2]
  refine ⟨rfl, rfl, rfl, ?_⟩
  intro i hi
  simp only [cmd_of_bytes]
  rw [show 7 + i = 0 + 7 + i by omega,
    fill_get (payload ++ [c0, c1]) _ (0 + 7) i payload[i]
      (by rw [List.getElem?_append_left hi]; exact List.getElem?_eq_getElem hi)]
  exact Nat.mod_eq_of_lt (hp _ (List.getElem_mem hi))

/-! ## Streams that do not start with the magic -/

/-- Up to 1033 bytes received from an empty accumulator, the first four of
which are not the magic: nothing is enqueued, and the counter wraps to 0 if
all 1033 arrived. -/
theorem uart_thread_wrong_magic (be : Bool) (s : FramerState) (L : List Nat)
    (hs : s.bytes_received = 0) (hlen : L.length ≤ 1033) (hb : all_bytes (L.take 4))
    (hm : L.take 4 ≠ magic_bytes be) :
    uart_thread be s L = (⟨fill s.cmd_ptr 0 L, L.length % 1033⟩, []) := by
  have h := uart_thread_quiet be L s (by omega) (by omega)
    (by
      intro k hk
      rw [hs]
      by_cases hk9 : k + 1 < 9
      · exact complete_false_of_lt9 be _ _ (by omega)
      · rcases L with _ | ⟨a, _ | ⟨b, _ | ⟨c, _ | ⟨d, L'⟩⟩⟩⟩
        · simp at hk
        · simp at hk; omega
        · simp at hk; omega
        · simp at hk; omega
        · obtain ⟨k', rfl⟩ : ∃ k', k = k' + 3 := ⟨k - 3, by omega⟩
          apply complete_false_of_magic
          simp only [List.take_succ_cons, fill]
          rw [magic_fill_of_ge4 be _ _ _ (by omega)]
          simp only [List.take_succ_cons, List.take_zero, all_bytes, List.mem_cons,
            List.mem_nil_iff, or_false] at hb hm
          have ha := hb a (Or.inl rfl)
          have hb' := hb b (Or.inr (Or.inl rfl))
          have hc := hb c (Or.inr (Or.inr (Or.inl rfl)))
          have hd := hb d (Or.inr (Or.inr (Or.inr rfl)))
          have hl : (cmd_of_bytes be (poke (poke (poke (poke s.cmd_ptr 0 a) (0 + 1) b)
              (0 + 1 + 1) c) (0 + 1 + 1 + 1) d)).magic = load_u32 be a b c d := by
            simp [cmd_of_bytes, poke, Nat.mod_eq_of_lt ha, Nat.mod_eq_of_lt hb',
              Nat.mod_eq_of_lt hc, Nat.mod_eq_of_lt hd]
          rw [hl]
          intro heq
          exact hm ((load_magic_iff be a b c d ha hb' hc hd).1 heq))
  rw [h, hs]
  simp

/-- Noise that nowhere contains the magic, received from an empty
accumulator: nothing is enqueued. -/
theorem uart_thread_noise (be : Bool) : ∀ (m : Nat) (noise : List Nat) (s : FramerState),
    noise.length ≤ 1033 * m → s.bytes_received = 0 → all_bytes noise →
    ¬ (magic_bytes be <:+: noise) →
    (uart_thread be s noise).2 = [] ∧
    (uart_thread be s noise).1.bytes_received = noise.length % 1033
  | 0, noise, s, hl, hs, _, _ => by
    have : noise = [] := List.eq_nil_of_length_eq_zero (by omega)
    subst this
    simp [uart_thread, hs]
  | m + 1, noise, s, hl, hs, hb, hm => by
    have htake : (noise.take 1033).take 4 = noise.take 4 := by
      rw [List.take_take]; simp
    have hb1 : all_bytes ((noise.take 1033).take 4) := by
      rw [htake]
      intro b hbm
      exact hb b (List.mem_of_mem_take hbm)
    have hm1 : (noise.take 1033).take 4 ≠ magic_bytes be := by
      rw [htake]
      intro heq
      apply hm
      rw [← heq]
      exact (List.take_prefix 4 noise).isInfix
    have h1 := uart_thread_wrong_magic be s (noise.take 1033) hs
      (by rw [List.length_take]; omega) hb1 hm1
    by_cases hlong : noise.length < 1033
    · rw [List.take_of_length_le (by omega)] at h1
      rw [h1]
      exact ⟨rfl, rfl⟩
    · have hsplit : noise = noise.take 1033 ++ noise.drop 1033 := (List.take_append_drop _ _).symm
      have hlt : (noise.take 1033).length = 1033 := by rw [List.length_take]; omega
      have ih := uart_thread_noise be m (noise.drop 1033)
        ⟨fill s.cmd_ptr 0 (noise.take 1033), 0⟩
        (by rw [List.length_drop]; omega) rfl
        (fun b hbm => hb b (List.mem_of_mem_drop hbm))
        (fun hin => hm (hin.trans (List.drop_suffix 1033 noise).isInfix))
      rw [hlt] at h1
      rw [hsplit, uart_thread_append, h1]
      simp only [Nat.mod_self, List.nil_append]
      refine ⟨ih.1, ?_⟩
      rw [ih.2, ← hsplit, List.length_drop]
      omega

/-! ## The invariant of the accumulator -/

theorem framer_inv_init (be : Bool) (stack : Nat → Nat) : framer_inv be (uart_init stack) := by
  simp [framer_inv, uart_init]

theorem framer_inv_step (be : Bool) (s : FramerState) (b : Nat) (_h : framer_inv be s) :
    framer_inv be (uart_step be s b).1 := by
  cases hput : complete be (poke s.cmd_ptr s.bytes_received b) (s.bytes_received + 1)
  · rw [uart_step_quiet be s b hput]
    by_cases hc : s.bytes_received + 1 ≥ 1033
    · simp [framer_inv, hc]
    · simp only [framer_inv, hc, if_false]
      refine ⟨by omega, fun _ hmag => ?_⟩
      by_contra hlt
      have := (complete_iff be _ (s.bytes_received + 1)).2 ⟨hmag, by omega⟩
      rw [hput] at this
      exact Bool.false_ne_true this
  · rw [uart_step_put be s b hput]
    simp [framer_inv]

theorem framer_inv_run (be : Bool) : ∀ (L : List Nat) (s : FramerState),
    framer_inv be s → framer_inv be (uart_thread be s L).1
  | [], _, h => h
  | b :: bs, s, h => by
    simp only [uart_thread]
    exact framer_inv_run be bs _ (framer_inv_step be s b h)

/-- What one iteration enqueues: nothing, or the buffer as it stands. -/
theorem uart_step_snd (be : Bool) (s : FramerState) (b : Nat) :
    (uart_step be s b).2 =
      if complete be (poke s.cmd_ptr s.bytes_received b) (s.bytes_received + 1)
      then [cmd_of_bytes be (poke s.cmd_ptr s.bytes_received b)] else [] := by
  simp [uart_step]

/-- In a state that satisfies the invariant, the completeness test succeeds
only when the accumulator holds exactly `9 + data_len` bytes; `data_len` is
then at most 1024. -/
theorem complete_exact (be : Bool) (s : FramerState) (b : Nat) (h : framer_inv be s)
    (hput : complete be (poke s.cmd_ptr s.bytes_received b) (s.bytes_received + 1) = true) :
    (cmd_of_bytes be (poke s.cmd_ptr s.bytes_received b)).magic = ZEROCLAW_MAGIC ∧
    (cmd_of_bytes be (poke s.cmd_ptr s.bytes_received b)).data_len ≤ 1024 ∧
    s.bytes_received + 1 = 9 + (cmd_of_bytes be (poke s.cmd_ptr s.bytes_received b)).data_len := by
  obtain ⟨hmag, hge⟩ := (complete_iff be _ _).1 hput
  have hf := fields_fill_of_ge7 be s.cmd_ptr s.bytes_received [b]
  simp only [fill] at hf
  have : s.bytes_received + 1 ≤ 9 + (cmd_of_bytes be (poke s.cmd_ptr s.bytes_received b)).data_len := by
    by_cases h7 : 7 ≤ s.bytes_received
    · have hf' := hf h7
      have := h.2 h7 (by rw [← hf'.1]; exact hmag)
      rw [hf'.2.2]
      omega
    · omega
  have := h.1
  exact ⟨hmag, by omega, by omega⟩

/-- Every command in the output of a run is enqueued by one of its
iterations. -/
theorem mem_uart_thread (be : Bool) (pkt : zeroclaw_command) : ∀ (L : List Nat) (s : FramerState),
    pkt ∈ (uart_thread be s L).2 →
    ∃ pre byte post, L = pre ++ byte :: post ∧
      pkt ∈ (uart_step be (uart_thread be s pre).1 byte).2
  | [], _, h => by simp [uart_thread] at h
  | b :: bs, s, h => by
    simp only [uart_thread, List.mem_append] at h
    rcases h with h | h
    · exact ⟨[], b, bs, rfl, by simpa [uart_thread] using h⟩
    · obtain ⟨pre, byte, post, hL, hmem⟩ := mem_uart_thread be pkt bs _ h
      exact ⟨b :: pre, byte, post, by rw [hL]; rfl, by simpa [uart_thread] using hmem⟩

/-- A well-formed command received from an empty accumulator: exactly one
command is enqueued, it shows the encoded fields, and the counter is back
at 0. -/
theorem uart_thread_command_fields (be : Bool) (s : FramerState) (ct : Nat)
    (payload : List Nat) (c0 c1 : Nat) (hs : s.bytes_received = 0) (hct : ct < 256)
    (hlen : payload.length ≤ 1024) (hp : all_bytes payload) :
    (uart_thread be s (encode_command be ct payload c0 c1)).1.bytes_received = 0 ∧
    ∃ pkt, (uart_thread be s (encode_command be ct payload c0 c1)).2 = [pkt] ∧
      pkt.magic = ZEROCLAW_MAGIC ∧ pkt.cmd_type = ct ∧ pkt.data_len = payload.length ∧
      ∀ i (hi : i < payload.length), pkt.data i = payload[i] := by
  rw [uart_thread_command be s ct payload c0 c1 hs hct hlen]
  exact ⟨rfl, _, rfl, command_fields be s.cmd_ptr ct payload c0 c1 hct hlen hp⟩

/-! ## The framer: claims -/

/-- C1: a well-formed command (magic, any cmd_type, at most 1024 payload
bytes, two checksum bytes) followed by noise bytes that nowhere contain the
magic, fed byte by byte to the loop of `uart_thread` from `bytes_received = 0`,
enqueues exactly one command, whose magic, cmd_type, data_len and first
data_len data bytes are the encoded ones. -/
theorem C1_command_then_noise (be : Bool) (stack : Nat → Nat) (ct : Nat) (payload : List Nat)
    (c0 c1 : Nat) (noise : List Nat) (hct : ct < 256) (hlen : payload.length ≤ 1024)
    (hp : all_bytes payload) (hn : all_bytes noise) (hm : ¬ (magic_bytes be <:+: noise)) :
    ∃ pkt, (uart_thread be (uart_init stack) (encode_command be ct payload c0 c1 ++ noise)).2
        = [pkt] ∧
      pkt.magic = ZEROCLAW_MAGIC ∧ pkt.cmd_type = ct ∧ pkt.data_len = payload.length ∧
      ∀ i (hi : i < payload.length), pkt.data i = payload[i] := by
  obtain ⟨h0, pkt, hp1, hf⟩ :=
    uart_thread_command_fields be (uart_init stack) ct payload c0 c1 rfl hct hlen hp
  have hnoise := uart_thread_noise be noise.length noise
    (uart_thread be (uart_init stack) (encode_command be ct payload c0 c1)).1
    (by omega) h0 hn hm
  refine ⟨pkt, ?_, hf⟩
  rw [uart_thread_append, hp1, hnoise.1]
  rfl

/-- C1, at a GPIO_WRITE command with payload [5, 1] followed by three noise
bytes, on a little-endian target. -/
theorem C1_command_then_noise_witness :
    ∃ pkt, (uart_thread false (uart_init (fun _ => 0))
        (encode_command false 2 [5, 1] 0 0 ++ [1, 2, 3])).2 = [pkt] ∧
      pkt.magic = ZEROCLAW_MAGIC ∧ pkt.cmd_type = 2 ∧ pkt.data_len = [5, 1].length ∧
      ∀ i (hi : i < [5, 1].length), pkt.data i = [5, 1][i] :=
  C1_command_then_noise false (fun _ => 0) 2 [5, 1] 0 0 [1, 2, 3] (by decide) (by decide)
    (by decide) (by decide) (by decide)

/-- C2 fails: the HEALTH_CHECK command 4F 52 45 5A 05 00 00 45 01 (its last
two bytes the little-endian sum 0x0145 of the seven before) with its last byte
altered to 00 is still enqueued by the loop of `uart_thread`. -/
theorem C2_counterexample :
    (encode_command false 5 [] 0x45 0x01).set 8 0x00 = [0x4F, 0x52, 0x45, 0x5A, 5, 0, 0, 0x45, 0]
    ∧ headers (uart_thread false (uart_init (fun _ => 0))
        ((encode_command false 5 [] 0x45 0x01).set 8 0x00)).2 = [(ZEROCLAW_MAGIC, 5, 0)] := by
  decide

theorem encode_command_length (be : Bool) (ct : Nat) (payload : List Nat) (c0 c1 : Nat) :
    (encode_command be ct payload c0 c1).length = 9 + payload.length := by
  simp only [encode_command, List.length_append, encode_header_length, List.length_cons,
    List.length_nil]
  omega

theorem encode_command_take4 (be : Bool) (ct : Nat) (payload : List Nat) (c0 c1 : Nat) :
    (encode_command be ct payload c0 c1).take 4 = magic_bytes be := by
  cases be <;> simp [encode_command, encode_header, magic_bytes, store_u32]

theorem magic_bytes_all (be : Bool) : all_bytes (magic_bytes be) := by
  cases be <;> decide

/-- C2, amended: the loop of `uart_thread` checks the magic and the length,
never the checksum.  Altering one of the four magic bytes of a well-formed
command makes it enqueue nothing; altering one of the two checksum bytes
changes nothing: the command is enqueued, exactly once, with the encoded
magic, cmd_type, data_len and payload. -/
theorem C2_only_magic_is_checked (be : Bool) (stack : Nat → Nat) (ct : Nat)
    (payload : List Nat) (c0 c1 i b : Nat) (hct : ct < 256) (hlen : payload.length ≤ 1024)
    (hp : all_bytes payload) (hb : b < 256)
    (hi : i < (encode_command be ct payload c0 c1).length)
    (hne : (encode_command be ct payload c0 c1)[i] ≠ b) :
    (i < 4 →
      (uart_thread be (uart_init stack) ((encode_command be ct payload c0 c1).set i b)).2 = []) ∧
    (7 + payload.length ≤ i →
      ∃ pkt,
        (uart_thread be (uart_init stack) ((encode_command be ct payload c0 c1).set i b)).2
          = [pkt] ∧
        pkt.magic = ZEROCLAW_MAGIC ∧ pkt.cmd_type = ct ∧ pkt.data_len = payload.length ∧
        ∀ j (hj : j < payload.length), pkt.data j = payload[j]) := by
  have hL := encode_command_length be ct payload c0 c1
  constructor
  · intro hi4
    have htake : ((encode_command be ct payload c0 c1).set i b).take 4 = (magic_bytes be).set i b := by
      rw [← encode_command_take4 be ct payload c0 c1, List.set_take]
    have hmem : all_bytes (((encode_command be ct payload c0 c1).set i b).take 4) := by
      rw [htake]
      intro x hx
      rcases List.mem_or_eq_of_mem_set hx with h | h
      · exact magic_bytes_all be x h
      · rw [h]; exact hb
    have hneq : ((encode_command be ct payload c0 c1).set i b).take 4 ≠ magic_bytes be := by
      rw [htake]
      intro heq
      have hlm : i < (magic_bytes be).length := by cases be <;> simpa [magic_bytes, store_u32]
      have h1 : ((magic_bytes be).set i b)[i]? = some b := by
        rw [List.getElem?_set_self hlm]
      rw [heq, ← encode_command_take4 be ct payload c0 c1, List.getElem?_take_of_lt hi4,
        List.getElem?_eq_getElem hi] at h1
      exact hne (Option.some.inj h1)
    rw [uart_thread_wrong_magic be (uart_init stack) _ rfl
      (by rw [List.length_set, hL]; omega) hmem hneq]
  · intro hi7
    have hset : ∃ c0' c1', (encode_command be ct payload c0 c1).set i b
        = encode_command be ct payload c0' c1' := by
      have hh := encode_header_length be ct payload.length
      rw [hL] at hi
      by_cases h7 : i = 7 + payload.length
      · refine ⟨b, c1, ?_⟩
        simp only [encode_command]
        rw [List.set_append_right _ _ (by simp [hh]; omega)]
        simp only [List.length_append, hh, h7]
        simp
      · refine ⟨c0, b, ?_⟩
        have h8 : i = 8 + payload.length := by omega
        simp only [encode_command]
        rw [List.set_append_right _ _ (by simp [hh]; omega)]
        simp only [List.length_append, hh, h8]
        rw [show 8 + payload.length - (7 + payload.length) = 1 by omega]
        simp
    obtain ⟨c0', c1', hs⟩ := hset
    rw [hs]
    exact (uart_thread_command_fields be (uart_init stack) ct payload c0' c1' rfl hct hlen hp).2

/-- C2 amended, at the HEALTH_CHECK command of the counterexample: with its
first magic byte altered to 00 nothing is enqueued, with its last checksum
byte altered to 00 it is enqueued. -/
theorem C2_only_magic_is_checked_witness :
    (uart_thread false (uart_init (fun _ => 0))
      ((encode_command false 5 [] 0x45 0x01).set 0 0)).2 = [] ∧
    ∃ pkt,
      (uart_thread false (uart_init (fun _ => 0))
        ((encode_command false 5 [] 0x45 0x01).set 8 0)).2 = [pkt] ∧
      pkt.magic = ZEROCLAW_MAGIC ∧ pkt.cmd_type = 5 ∧ pkt.data_len = ([] : List Nat).length ∧
      ∀ j (hj : j < ([] : List Nat).length), pkt.data j = ([] : List Nat)[j] :=
  ⟨(C2_only_magic_is_checked false (fun _ => 0) 5 [] 0x45 0x01 0 0 (by decide) (by decide)
      (by decide) (by decide) (by decide) (by decide)).1 (by decide),
   (C2_only_magic_is_checked false (fun _ => 0) 5 [] 0x45 0x01 8 0 (by decide) (by decide)
      (by decide) (by decide) (by decide) (by decide)).2 (by decide)⟩

/-- C3 fails: one noise byte 00 followed by the well-formed HEALTH_CHECK
command 4F 52 45 5A 05 00 00 45 01: the noise byte is not discarded, the
command lands one byte off in the buffer and nothing is enqueued. -/
theorem C3_counterexample :
    ¬ (magic_bytes false <:+: [0]) ∧
    (uart_thread false (uart_init (fun _ => 0))
      ([0] ++ encode_command false 5 [] 0x45 0x01)).2.length = 0 := by
  decide

/-- C3, amended: the loop of `uart_thread` has no sliding window; it starts
afresh only when `bytes_received` returns to 0, which on noise happens every
1033 bytes.  For every noise prefix that nowhere contains the magic and whose
length is a multiple of 1033, followed by a well-formed command (at most 1024
payload bytes), exactly that command is enqueued. -/
theorem C3_resync_on_wrap (be : Bool) (stack : Nat → Nat) (noise : List Nat) (ct : Nat)
    (payload : List Nat) (c0 c1 : Nat) (hn : all_bytes noise)
    (hm : ¬ (magic_bytes be <:+: noise)) (hwrap : noise.length % 1033 = 0)
    (hct : ct < 256) (hlen : payload.length ≤ 1024) (hp : all_bytes payload) :
    ∃ pkt, (uart_thread be (uart_init stack) (noise ++ encode_command be ct payload c0 c1)).2
        = [pkt] ∧
      pkt.magic = ZEROCLAW_MAGIC ∧ pkt.cmd_type = ct ∧ pkt.data_len = payload.length ∧
      ∀ i (hi : i < payload.length), pkt.data i = payload[i] := by
  have hnoise := uart_thread_noise be noise.length noise (uart_init stack) (by omega) rfl hn hm
  rw [hwrap] at hnoise
  obtain ⟨_, pkt, hp1, hf⟩ := uart_thread_command_fields be
    (uart_thread be (uart_init stack) noise).1 ct payload c0 c1 hnoise.2 hct hlen hp
  refine ⟨pkt, ?_, hf⟩
  rw [uart_thread_append, hnoise.1, hp1]
  rfl

/-- C3 amended, at 1033 zero bytes followed by a GPIO_WRITE command. -/
theorem C3_resync_on_wrap_witness :
    ∃ pkt, (uart_thread false (uart_init (fun _ => 0))
        (List.replicate 1033 0 ++ encode_command false 2 [5, 1] 0 0)).2 = [pkt] ∧
      pkt.magic = ZEROCLAW_MAGIC ∧ pkt.cmd_type = 2 ∧ pkt.data_len = [5, 1].length ∧
      ∀ i (hi : i < [5, 1].length), pkt.data i = [5, 1][i] :=
  C3_resync_on_wrap false (fun _ => 0) (List.replicate 1033 0) 2 [5, 1] 0 0
    (by intro b hb; rw [List.eq_of_mem_replicate hb]; decide)
    (by
      rintro ⟨p, q, h⟩
      have : (0x4F : Nat) ∈ List.replicate 1033 0 := by
        rw [← h]; simp [magic_bytes, store_u32, ZEROCLAW_MAGIC]
      exact absurd (List.eq_of_mem_replicate this) (by decide))
    (by rw [List.length_replicate]) (by decide) (by decide) (by decide)

/-- C4 fails: the header 4F 52 45 5A 05 01 04 (data_len 1025) followed at once
by the well-formed HEALTH_CHECK command 4F 52 45 5A 05 00 00 45 01: after the
header the counter stands at 7, not 0, and after the command nothing has been
enqueued. -/
theorem C4_counterexample :
    encode_header false 5 1025 = [0x4F, 0x52, 0x45, 0x5A, 5, 1, 4] ∧
    (uart_thread false (uart_init (fun _ => 0)) (encode_header false 5 1025)).1.bytes_received
      = 7 ∧
    (uart_thread false (uart_init (fun _ => 0))
      (encode_header false 5 1025 ++ encode_command false 5 [] 0x45 0x01)).2.length = 0 := by
  decide

/-- C4, amended: for every 7-byte header carrying the magic, any cmd_type and
a data_len above 1024, the loop of `uart_thread` started from
`bytes_received = 0` enqueues nothing for it, and it is the reset at 1033
bytes that ends the frame: once the header and the 1026 bytes after it,
whatever they are, have been read, `bytes_received` is 0 again, and a
well-formed command that follows is the one and only command enqueued. -/
theorem C4_oversize_reset_at_1033 (be : Bool) (stack : Nat → Nat) (ct0 dl : Nat)
    (filler : List Nat) (ct : Nat) (payload : List Nat) (c0 c1 : Nat)
    (hct0 : ct0 < 256) (hdl : 1024 < dl) (hdl16 : dl < 65536) (hfill : filler.length = 1026)
    (hct : ct < 256) (hlen : payload.length ≤ 1024) (hp : all_bytes payload) :
    (uart_thread be (uart_init stack) (encode_header be ct0 dl)).2 = [] ∧
    (uart_thread be (uart_init stack) (encode_header be ct0 dl)).1.bytes_received = 7 ∧
    (uart_thread be (uart_init stack) (encode_header be ct0 dl ++ filler)).2 = [] ∧
    (uart_thread be (uart_init stack) (encode_header be ct0 dl ++ filler)).1.bytes_received = 0 ∧
    ∃ pkt,
      (uart_thread be (uart_init stack)
        ((encode_header be ct0 dl ++ filler) ++ encode_command be ct payload c0 c1)).2 = [pkt] ∧
      pkt.magic = ZEROCLAW_MAGIC ∧ pkt.cmd_type = ct ∧ pkt.data_len = payload.length ∧
      ∀ i (hi : i < payload.length), pkt.data i = payload[i] := by
  have h7 := uart_thread_header_quiet be (uart_init stack) ct0 dl [] rfl hct0 hdl16
    (by simp only [List.length_nil]; omega) (by simp)
  rw [List.append_nil] at h7
  have hq := uart_thread_header_quiet be (uart_init stack) ct0 dl filler rfl hct0 hdl16
    (by omega) (by omega)
  rw [hfill] at hq
  obtain ⟨_, pkt, hp1, hf⟩ := uart_thread_command_fields be
    (uart_thread be (uart_init stack) (encode_header be ct0 dl ++ filler)).1 ct payload c0 c1
    (by rw [hq]) hct hlen hp
  refine ⟨by rw [h7], by rw [h7]; rfl, by rw [hq], by rw [hq], pkt, ?_, hf⟩
  rw [uart_thread_append, hp1, hq]
  rfl

/-- C4 amended, at the header of the counterexample followed by 1026 zero
bytes and the HEALTH_CHECK command. -/
theorem C4_oversize_reset_at_1033_witness :
    (uart_thread false (uart_init (fun _ => 0)) (encode_header false 5 1025)).2 = [] ∧
    (uart_thread false (uart_init (fun _ => 0)) (encode_header false 5 1025)).1.bytes_received
      = 7 ∧
    (uart_thread false (uart_init (fun _ => 0))
      (encode_header false 5 1025 ++ List.replicate 1026 0)).2 = [] ∧
    (uart_thread false (uart_init (fun _ => 0))
      (encode_header false 5 1025 ++ List.replicate 1026 0)).1.bytes_received = 0 ∧
    ∃ pkt,
      (uart_thread false (uart_init (fun _ => 0))
        ((encode_header false 5 1025 ++ List.replicate 1026 0)
          ++ encode_command false 5 [] 0x45 0x01)).2 = [pkt] ∧
      pkt.magic = ZEROCLAW_MAGIC ∧ pkt.cmd_type = 5 ∧ pkt.data_len = ([] : List Nat).length ∧
      ∀ i (hi : i < ([] : List Nat).length), pkt.data i = ([] : List Nat)[i] :=
  C4_oversize_reset_at_1033 false (fun _ => 0) 5 1025 (List.replicate 1026 0) 5 [] 0x45 0x01
    (by decide) (by decide) (by decide) (List.length_replicate _ _) (by decide) (by decide)
    (by decide)

/-- C5: for every input byte stream, every command the loop of `uart_thread`
enqueues has magic `ZEROCLAW_MAGIC` and data_len at most 1024, and is enqueued
by the iteration that brings the accumulator to exactly `9 + data_len` bytes;
conversely, whenever an iteration brings the accumulator to `9 + data_len`
bytes under a matching magic, the buffer is enqueued in that iteration. -/
theorem C5_enqueued_at_exact_length (be : Bool) (stack : Nat → Nat) (stream : List Nat) :
    (∀ pkt ∈ (uart_thread be (uart_init stack) stream).2,
      pkt.magic = ZEROCLAW_MAGIC ∧ pkt.data_len ≤ MAX_COMMAND_SIZE ∧
      ∃ pre byte post, stream = pre ++ byte :: post ∧
        (uart_step be (uart_thread be (uart_init stack) pre).1 byte).2 = [pkt] ∧
        (uart_thread be (uart_init stack) pre).1.bytes_received + 1 = 9 + pkt.data_len) ∧
    (∀ pre byte post, stream = pre ++ byte :: post →
      (cmd_of_bytes be (poke (uart_thread be (uart_init stack) pre).1.cmd_ptr
        (uart_thread be (uart_init stack) pre).1.bytes_received byte)).magic = ZEROCLAW_MAGIC →
      (uart_thread be (uart_init stack) pre).1.bytes_received + 1 =
        9 + (cmd_of_bytes be (poke (uart_thread be (uart_init stack) pre).1.cmd_ptr
          (uart_thread be (uart_init stack) pre).1.bytes_received byte)).data_len →
      (uart_step be (uart_thread be (uart_init stack) pre).1 byte).2 =
        [cmd_of_bytes be (poke (uart_thread be (uart_init stack) pre).1.cmd_ptr
          (uart_thread be (uart_init stack) pre).1.bytes_received byte)]) := by
  constructor
  · intro pkt hmem
    obtain ⟨pre, byte, post, hL, hstep⟩ := mem_uart_thread be pkt stream _ hmem
    have hinv := framer_inv_run be pre _ (framer_inv_init be stack)
    rw [uart_step_snd] at hstep
    cases hput : complete be (poke (uart_thread be (uart_init stack) pre).1.cmd_ptr
        (uart_thread be (uart_init stack) pre).1.bytes_received byte)
        ((uart_thread be (uart_init stack) pre).1.bytes_received + 1)
    · rw [hput] at hstep; simp at hstep
    · rw [hput] at hstep
      simp only [if_true, List.mem_singleton] at hstep
      obtain ⟨h1, h2, h3⟩ := complete_exact be _ byte hinv hput
      subst hstep
      refine ⟨h1, h2, pre, byte, post, hL, ?_, h3⟩
      rw [uart_step_snd, hput]
      rfl
  · intro pre byte post _ hmag hcnt
    rw [uart_step_snd, (complete_iff be _ _).2 ⟨hmag, by omega⟩]
    rfl

/-- C5, at the stream of one GPIO_WRITE command: a command is enqueued, and
it is enqueued as the claim says. -/
theorem C5_enqueued_at_exact_length_witness :
    ∃ pkt, pkt ∈ (uart_thread false (uart_init (fun _ => 0))
        (encode_command false 2 [5, 1] 0 0)).2 ∧
      pkt.magic = ZEROCLAW_MAGIC ∧ pkt.data_len ≤ MAX_COMMAND_SIZE ∧
      ∃ pre byte post, encode_command false 2 [5, 1] 0 0 = pre ++ byte :: post ∧
        (uart_step false (uart_thread false (uart_init (fun _ => 0)) pre).1 byte).2 = [pkt] ∧
        (uart_thread false (uart_init (fun _ => 0)) pre).1.bytes_received + 1
          = 9 + pkt.data_len := by
  obtain ⟨_, pkt, h, _⟩ := uart_thread_command_fields false (uart_init (fun _ => 0)) 2 [5, 1] 0 0
    rfl (by decide) (by decide) (by decide)
  have hm : pkt ∈ (uart_thread false (uart_init (fun _ => 0))
      (encode_command false 2 [5, 1] 0 0)).2 := by
    rw [h]; exact List.mem_singleton.2 rfl
  exact ⟨pkt, hm, (C5_enqueued_at_exact_length false (fun _ => 0) _).1 pkt hm⟩

/-! ## The dispatcher: claims -/

theorem to_u8_lt (x : Int) : to_u8 x < 256 := by
  unfold to_u8; omega

theorem to_u8_eq_zero_iff (x : Int) : to_u8 x = 0 ↔ (256 : Int) ∣ x := by
  unfold to_u8; omega

/-- C6: a GPIO_WRITE command (cmd_type 0x02) with data_len below 2 gets the
status of -EINVAL in 8 bits (234, nonzero) and data_len 0, and neither
`zeroclaw_gpio_write` nor `gpio_pin_set` is called. -/
theorem C6_gpio_write_short (env : Periph) (be : Bool) (board : List Nat)
    (cmd : zeroclaw_command) (resp : zeroclaw_response)
    (ht : cmd.cmd_type = CMD_GPIO_WRITE) (hl : cmd.data_len < 2) :
    (process_zeroclaw_command env be board cmd resp).1.status = to_u8 (-EINVAL) ∧
    (process_zeroclaw_command env be board cmd resp).1.status = 234 ∧
    (process_zeroclaw_command env be board cmd resp).1.data_len = 0 ∧
    (process_zeroclaw_command env be board cmd resp).2 = [] := by
  simp [process_zeroclaw_command, ht, hl, CMD_GPIO_WRITE, CMD_GPIO_READ, to_u8, EINVAL]

/-- C6, at a GPIO_WRITE command with the one payload byte 5. -/
theorem C6_gpio_write_short_witness :
    (process_zeroclaw_command (board_env 0 0) false [] (mk_command 2 [5]) resp_zero).1.status
      = to_u8 (-EINVAL) ∧
    (process_zeroclaw_command (board_env 0 0) false [] (mk_command 2 [5]) resp_zero).1.status
      = 234 ∧
    (process_zeroclaw_command (board_env 0 0) false [] (mk_command 2 [5]) resp_zero).1.data_len
      = 0 ∧
    (process_zeroclaw_command (board_env 0 0) false [] (mk_command 2 [5]) resp_zero).2 = [] :=
  C6_gpio_write_short (board_env 0 0) false [] (mk_command 2 [5]) resp_zero (by decide)
    (by decide)

/-- C7: a GPIO_WRITE command with data_len at least 2, the GPIO device being
there, makes exactly one write, `gpio_pin_set(led_dev, data[0], data[1])`
through one call of `zeroclaw_gpio_write`; the response has data_len 0 and as
status the write's return code in 8 bits, which is 0 when the write
succeeds. -/
theorem C7_gpio_write (env : Periph) (be : Bool) (board : List Nat)
    (cmd : zeroclaw_command) (resp : zeroclaw_response)
    (ht : cmd.cmd_type = CMD_GPIO_WRITE) (hl : 2 ≤ cmd.data_len) (hdev : env.led_dev = true) :
    (process_zeroclaw_command env be board cmd resp).2 =
      [Call.zeroclaw_gpio_write (cmd.data 0) (cmd.data 1),
       Call.gpio_pin_set (cmd.data 0) (cmd.data 1)] ∧
    (process_zeroclaw_command env be board cmd resp).1.data_len = 0 ∧
    (process_zeroclaw_command env be board cmd resp).1.status =
      to_u8 (env.gpio_pin_set (cmd.data 0) (cmd.data 1)) ∧
    (env.gpio_pin_set (cmd.data 0) (cmd.data 1) = 0 →
      (process_zeroclaw_command env be board cmd resp).1.status = 0) := by
  have hl' : ¬ cmd.data_len < 2 := by omega
  have hs : (process_zeroclaw_command env be board cmd resp).1.status =
      to_u8 (env.gpio_pin_set (cmd.data 0) (cmd.data 1)) := by
    simp [process_zeroclaw_command, ht, hl', hdev, zeroclaw_gpio_write, CMD_GPIO_WRITE,
      CMD_GPIO_READ]
  refine ⟨?_, ?_, hs, ?_⟩
  · simp [process_zeroclaw_command, ht, hl', hdev, zeroclaw_gpio_write, CMD_GPIO_WRITE,
      CMD_GPIO_READ]
  · simp [process_zeroclaw_command, ht, hl', hdev, zeroclaw_gpio_write, CMD_GPIO_WRITE,
      CMD_GPIO_READ]
  · intro h0
    rw [hs, h0]
    rfl

/-- C7, at the command framed from the wire bytes 5A 45 52 4F 02 00 02 05 01
and two checksum bytes on a big-endian target, the write succeeding:
`gpio_pin_set(led_dev, 5, 1)` is the one write, status 0, data_len 0. -/
theorem C7_gpio_write_witness :
    (process_zeroclaw_command (board_env 0 0) true []
      (cmd_of_bytes true (fill (fun _ => 0) 0 (encode_command true 2 [5, 1] 0 0))) resp_zero).2 =
      [Call.zeroclaw_gpio_write 5 1, Call.gpio_pin_set 5 1] ∧
    (process_zeroclaw_command (board_env 0 0) true []
      (cmd_of_bytes true (fill (fun _ => 0) 0 (encode_command true 2 [5, 1] 0 0)))
      resp_zero).1.data_len = 0 ∧
    (process_zeroclaw_command (board_env 0 0) true []
      (cmd_of_bytes true (fill (fun _ => 0) 0 (encode_command true 2 [5, 1] 0 0)))
      resp_zero).1.status = 0 :=
  have h := C7_gpio_write (board_env 0 0) true []
    (cmd_of_bytes true (fill (fun _ => 0) 0 (encode_command true 2 [5, 1] 0 0))) resp_zero
    (by decide) (by decide) rfl
  ⟨h.1, h.2.1, h.2.2.2 rfl⟩

/-- C8: a GPIO_READ command for pin 5 while `gpio_pin_get` fails with the
return code -256.  `zeroclaw_gpio_read` returns -256, a failure, and the
response has status 0 (the 8 low bits of -256) and data_len 0, where the claim
has a nonzero status for every failed read. -/
theorem C8_failed_read_status_zero :
    (zeroclaw_gpio_read (board_env (-256) 0) 5 0).1 = -256 ∧
    (process_zeroclaw_command (board_env (-256) 0) false [] (mk_command 1 [5]) resp_zero).1.status
      = 0 ∧
    (process_zeroclaw_command (board_env (-256) 0) false [] (mk_command 1 [5])
      resp_zero).1.data_len = 0 := by
  decide

/-- The GPIO_READ contract as far as the code keeps it (cmd_type 0x01): with
data_len below 1 the response has the status of -EINVAL in 8 bits (234),
data_len 0 and no read is made; with data_len at least 1
`zeroclaw_gpio_read` is called exactly once, for pin data[0], and calls
`gpio_pin_get` once if the device is there.  When the read succeeds the
response has status 0, data_len 1 and data[0] the pin value read; when the
device is absent it has the status of -ENODEV in 8 bits (237) and data_len 0;
when `gpio_pin_get` fails it has data_len 0 and as status the 8 low bits of
the return code, nonzero exactly when the code is not a multiple of 256. -/
theorem gpio_read_contract (env : Periph) (be : Bool) (board : List Nat)
    (cmd : zeroclaw_command) (resp : zeroclaw_response) (ht : cmd.cmd_type = CMD_GPIO_READ) :
    (cmd.data_len < 1 →
      (process_zeroclaw_command env be board cmd resp).1.status = to_u8 (-EINVAL) ∧
      (process_zeroclaw_command env be board cmd resp).1.status = 234 ∧
      (process_zeroclaw_command env be board cmd resp).1.data_len = 0 ∧
      (process_zeroclaw_command env be board cmd resp).2 = []) ∧
    (1 ≤ cmd.data_len → env.led_dev = false →
      (process_zeroclaw_command env be board cmd resp).2 = [Call.zeroclaw_gpio_read (cmd.data 0)] ∧
      (process_zeroclaw_command env be board cmd resp).1.status = 237 ∧
      (process_zeroclaw_command env be board cmd resp).1.data_len = 0) ∧
    (1 ≤ cmd.data_len → env.led_dev = true →
      (process_zeroclaw_command env be board cmd resp).2 =
        [Call.zeroclaw_gpio_read (cmd.data 0), Call.gpio_pin_get (cmd.data 0)] ∧
      (0 ≤ env.gpio_pin_get (cmd.data 0) →
        (process_zeroclaw_command env be board cmd resp).1.status = 0 ∧
        (process_zeroclaw_command env be board cmd resp).1.data_len = 1 ∧
        (process_zeroclaw_command env be board cmd resp).1.data 0 =
          to_u8 (env.gpio_pin_get (cmd.data 0))) ∧
      (env.gpio_pin_get (cmd.data 0) < 0 →
        (process_zeroclaw_command env be board cmd resp).1.status =
          to_u8 (env.gpio_pin_get (cmd.data 0)) ∧
        (process_zeroclaw_command env be board cmd resp).1.data_len = 0 ∧
        ((process_zeroclaw_command env be board cmd resp).1.status ≠ 0 ↔
          ¬ (256 : Int) ∣ env.gpio_pin_get (cmd.data 0)))) := by
  refine ⟨?_, ?_, ?_⟩
  · intro hl
    simp [process_zeroclaw_command, ht, hl, to_u8, EINVAL]
  · intro hl hdev
    have hl' : ¬ cmd.data_len < 1 := by omega
    simp [process_zeroclaw_command, ht, hl', hdev, zeroclaw_gpio_read, to_u8, ENODEV]
  · intro hl hdev
    have hl' : ¬ cmd.data_len < 1 := by omega
    refine ⟨?_, ?_, ?_⟩
    · by_cases hneg : env.gpio_pin_get (cmd.data 0) < 0
      · by_cases hz : env.gpio_pin_get (cmd.data 0) = 0
        · omega
        · simp [process_zeroclaw_command, ht, hl', hdev, zeroclaw_gpio_read, hneg, hz]
      · simp [process_zeroclaw_command, ht, hl', hdev, zeroclaw_gpio_read, hneg]
    · intro hpos
      have hneg : ¬ env.gpio_pin_get (cmd.data 0) < 0 := by omega
      simp [process_zeroclaw_command, ht, hl', hdev, zeroclaw_gpio_read, hneg, poke]
      exact to_u8_lt _
    · intro hneg
      have hz : ¬ env.gpio_pin_get (cmd.data 0) = 0 := by omega
      have hs : (process_zeroclaw_command env be board cmd resp).1.status =
          to_u8 (env.gpio_pin_get (cmd.data 0)) := by
        simp [process_zeroclaw_command, ht, hl', hdev, zeroclaw_gpio_read, hneg, hz]
      refine ⟨hs, ?_, ?_⟩
      · simp [process_zeroclaw_command, ht, hl', hdev, zeroclaw_gpio_read, hneg, hz]
      · rw [hs, Ne, to_u8_eq_zero_iff]

/-- The GPIO_READ contract at a command for pin 5 that reads the level 1. -/
theorem gpio_read_contract_witness :
    (process_zeroclaw_command (board_env 1 0) false [] (mk_command 1 [5]) resp_zero).2 =
      [Call.zeroclaw_gpio_read 5, Call.gpio_pin_get 5] ∧
    (process_zeroclaw_command (board_env 1 0) false [] (mk_command 1 [5]) resp_zero).1.status
      = 0 ∧
    (process_zeroclaw_command (board_env 1 0) false [] (mk_command 1 [5]) resp_zero).1.data_len
      = 1 ∧
    (process_zeroclaw_command (board_env 1 0) false [] (mk_command 1 [5]) resp_zero).1.data 0
      = 1 :=
  have h := (gpio_read_contract (board_env 1 0) false [] (mk_command 1 [5]) resp_zero
    (by decide)).2.2 (by decide) rfl
  ⟨h.1, (h.2.1 (by decide)).1, (h.2.1 (by decide)).2.1, (h.2.1 (by decide)).2.2⟩

/-- C9: a HEALTH_CHECK command (cmd_type 0x05), whatever its data_len and
payload and whatever the peripherals do, gets a response with magic
`ZEROCLAW_MAGIC`, status 0, data_len 1 and data[0] = 0x01, and no wrapper or
driver is called. -/
theorem C9_health_check (env : Periph) (be : Bool) (board : List Nat)
    (cmd : zeroclaw_command) (resp : zeroclaw_response) (ht : cmd.cmd_type = CMD_HEALTH_CHECK) :
    (process_zeroclaw_command env be board cmd resp).1.magic = ZEROCLAW_MAGIC ∧
    (process_zeroclaw_command env be board cmd resp).1.status = 0 ∧
    (process_zeroclaw_command env be board cmd resp).1.data_len = 1 ∧
    (process_zeroclaw_command env be board cmd resp).1.data 0 = 0x01 ∧
    (process_zeroclaw_command env be board cmd resp).2 = [] := by
  simp [process_zeroclaw_command, ht, CMD_HEALTH_CHECK, CMD_GPIO_READ, CMD_GPIO_WRITE,
    CMD_SENSOR_READ, CMD_DEVICE_INFO, poke]

/-- C9, at the command framed from the wire bytes 5A 45 52 4F 05 00 00 and
two checksum bytes, with every driver failing. -/
theorem C9_health_check_witness :
    (process_zeroclaw_command (board_env (-5) (-5)) true []
      (cmd_of_bytes true (fill (fun _ => 0) 0 (encode_command true 5 [] 0 0))) resp_zero).1.magic
      = ZEROCLAW_MAGIC ∧
    (process_zeroclaw_command (board_env (-5) (-5)) true []
      (cmd_of_bytes true (fill (fun _ => 0) 0 (encode_command true 5 [] 0 0))) resp_zero).1.status
      = 0 ∧
    (process_zeroclaw_command (board_env (-5) (-5)) true []
      (cmd_of_bytes true (fill (fun _ => 0) 0 (encode_command true 5 [] 0 0)))
      resp_zero).1.data_len = 1 ∧
    (process_zeroclaw_command (board_env (-5) (-5)) true []
      (cmd_of_bytes true (fill (fun _ => 0) 0 (encode_command true 5 [] 0 0))) resp_zero).1.data 0
      = 0x01 ∧
    (process_zeroclaw_command (board_env (-5) (-5)) true []
      (cmd_of_bytes true (fill (fun _ => 0) 0 (encode_command true 5 [] 0 0))) resp_zero).2
      = [] :=
  C9_health_check (board_env (-5) (-5)) true []
    (cmd_of_bytes true (fill (fun _ => 0) 0 (encode_command true 5 [] 0 0))) resp_zero
    (by decide)

/-- C10: a command whose cmd_type is none of GPIO_READ, GPIO_WRITE,
SENSOR_READ, DEVICE_INFO, HEALTH_CHECK (0xFF, or the declared CMD_CODE_EXEC
0x06) gets a response with magic `ZEROCLAW_MAGIC`, the status of -ENOSYS in 8
bits (168, nonzero) and data_len 0, and no wrapper or driver is called. -/
theorem C10_unknown_command (env : Periph) (be : Bool) (board : List Nat)
    (cmd : zeroclaw_command) (resp : zeroclaw_response)
    (h1 : cmd.cmd_type ≠ CMD_GPIO_READ) (h2 : cmd.cmd_type ≠ CMD_GPIO_WRITE)
    (h3 : cmd.cmd_type ≠ CMD_SENSOR_READ) (h4 : cmd.cmd_type ≠ CMD_DEVICE_INFO)
    (h5 : cmd.cmd_type ≠ CMD_HEALTH_CHECK) :
    (process_zeroclaw_command env be board cmd resp).1.magic = ZEROCLAW_MAGIC ∧
    (process_zeroclaw_command env be board cmd resp).1.status = to_u8 (-ENOSYS) ∧
    (process_zeroclaw_command env be board cmd resp).1.status = 168 ∧
    (process_zeroclaw_command env be board cmd resp).1.data_len = 0 ∧
    (process_zeroclaw_command env be board cmd resp).2 = [] := by
  simp [process_zeroclaw_command, h1, h2, h3, h4, h5, to_u8, ENOSYS]

/-- C10, at cmd_type 0xFF and at cmd_type `CMD_CODE_EXEC`. -/
theorem C10_unknown_command_witness :
    ((process_zeroclaw_command (board_env 0 0) false [] (mk_command 0xFF []) resp_zero).1.magic
        = ZEROCLAW_MAGIC ∧
      (process_zeroclaw_command (board_env 0 0) false [] (mk_command 0xFF []) resp_zero).1.status
        = to_u8 (-ENOSYS) ∧
      (process_zeroclaw_command (board_env 0 0) false [] (mk_command 0xFF []) resp_zero).1.status
        = 168 ∧
      (process_zeroclaw_command (board_env 0 0) false [] (mk_command 0xFF [])
        resp_zero).1.data_len = 0 ∧
      (process_zeroclaw_command (board_env 0 0) false [] (mk_command 0xFF []) resp_zero).2
        = []) ∧
    (process_zeroclaw_command (board_env 0 0) false [] (mk_command CMD_CODE_EXEC [])
      resp_zero).1.status = 168 :=
  ⟨C10_unknown_command (board_env 0 0) false [] (mk_command 0xFF []) resp_zero (by decide)
      (by decide) (by decide) (by decide) (by decide),
   (C10_unknown_command (board_env 0 0) false [] (mk_command CMD_CODE_EXEC []) resp_zero
      (by decide) (by decide) (by decide) (by decide) (by decide)).2.2.1⟩

/-! ## Commands back to back -/

theorem encode_wire_length (be : Bool) (w : wire_command) :
    (encode_wire be w).length = 9 + w.payload.length :=
  encode_command_length be w.cmd_type w.payload w.c0 w.c1

/-- A proper prefix of a well-formed command, received from an empty
accumulator: nothing is enqueued and the counter stands at the number of bytes
received. -/
theorem uart_thread_command_prefix (be : Bool) (s : FramerState) (ct : Nat)
    (payload : List Nat) (c0 c1 k : Nat) (hs : s.bytes_received = 0) (hct : ct < 256)
    (hlen : payload.length ≤ 1024) (hk : k < 9 + payload.length) :
    (uart_thread be s ((encode_command be ct payload c0 c1).take k)).2 = [] ∧
    (uart_thread be s ((encode_command be ct payload c0 c1).take k)).1.bytes_received = k := by
  have hL := encode_command_length be ct payload c0 c1
  have hh := encode_header_length be ct payload.length
  by_cases hk9 : k < 9
  · have h := uart_thread_quiet be ((encode_command be ct payload c0 c1).take k) s (by omega)
      (by rw [hs, List.length_take, hL]; omega)
      (by
        intro j hj
        rw [List.length_take, hL] at hj
        rw [hs]
        exact complete_false_of_lt9 be _ _ (by omega))
    rw [h, hs, List.length_take, hL]
    refine ⟨rfl, ?_⟩
    show (0 + min k (9 + payload.length)) % 1033 = k
    rw [Nat.zero_add, Nat.min_eq_left (by omega), Nat.mod_eq_of_lt (by omega)]
  · have e : (encode_command be ct payload c0 c1).take k =
        encode_header be ct payload.length ++ (payload ++ [c0, c1]).take (k - 7) := by
      have e2 : encode_command be ct payload c0 c1 =
          encode_header be ct payload.length ++ (payload ++ [c0, c1]) := by
        simp [encode_command]
      rw [e2, List.take_append_eq_append_take, hh, List.take_of_length_le (by omega)]
    have hX : ((payload ++ [c0, c1]).take (k - 7)).length = k - 7 := by
      rw [List.length_take, List.length_append]
      simp only [List.length_cons, List.length_nil]
      omega
    have h := uart_thread_header_quiet be s ct payload.length
      ((payload ++ [c0, c1]).take (k - 7)) hs hct (by omega) (by omega) (by omega)
    rw [e, h, hX]
    refine ⟨rfl, ?_⟩
    show (7 + (k - 7)) % 1033 = k
    rw [Nat.mod_eq_of_lt (by omega)]
    omega

/-- Well-formed commands received back to back from an empty accumulator:
each is enqueued, in order, and the accumulator is empty at the end. -/
theorem uart_thread_sequence (be : Bool) : ∀ (ws : List wire_command) (s : FramerState),
    s.bytes_received = 0 → (∀ w ∈ ws, well_formed w) →
    (uart_thread be s (encode_all be ws)).1.bytes_received = 0 ∧
    List.Forall₂ carries ws (uart_thread be s (encode_all be ws)).2
  | [], s, hs, _ => by
    simp only [encode_all, uart_thread]
    exact ⟨hs, List.Forall₂.nil⟩
  | w :: ws, s, hs, hw => by
    obtain ⟨hct, hlen, hp⟩ := hw w (List.mem_cons_self _ _)
    obtain ⟨h0, pkt, hp1, hf⟩ :=
      uart_thread_command_fields be s w.cmd_type w.payload w.c0 w.c1 hs hct hlen hp
    have ih := uart_thread_sequence be ws
      (uart_thread be s (encode_command be w.cmd_type w.payload w.c0 w.c1)).1 h0
      (fun x hx => hw x (List.mem_cons_of_mem _ hx))
    simp only [encode_all, encode_wire]
    rw [uart_thread_append, hp1]
    exact ⟨ih.1, List.Forall₂.cons hf ih.2⟩

/-- C19: for every finite sequence of well-formed commands (each with at most
1024 payload bytes) sent back to back to the loop of `uart_thread` from
`bytes_received = 0`: the commands enqueued are exactly those sent, one each,
in the order sent, and `bytes_received` is 0 at the end; each command takes
exactly `9 + data_len` bytes: while fewer of its bytes have arrived it is not
enqueued and the counter stands at their number, and with its last byte it is
enqueued and the counter is back at 0. -/
theorem C19_back_to_back (be : Bool) (stack : Nat → Nat) (ws : List wire_command)
    (hw : ∀ w ∈ ws, well_formed w) :
    (uart_thread be (uart_init stack) (encode_all be ws)).1.bytes_received = 0 ∧
    List.Forall₂ carries ws (uart_thread be (uart_init stack) (encode_all be ws)).2 ∧
    ∀ pre w post, ws = pre ++ w :: post →
      (encode_wire be w).length = 9 + w.payload.length ∧
      (∀ k, k < 9 + w.payload.length →
        (uart_thread be (uart_init stack)
          (encode_all be pre ++ (encode_wire be w).take k)).2.length = pre.length ∧
        (uart_thread be (uart_init stack)
          (encode_all be pre ++ (encode_wire be w).take k)).1.bytes_received = k) ∧
      (uart_thread be (uart_init stack)
        (encode_all be pre ++ encode_wire be w)).2.length = pre.length + 1 ∧
      (uart_thread be (uart_init stack)
        (encode_all be pre ++ encode_wire be w)).1.bytes_received = 0 := by
  refine ⟨(uart_thread_sequence be ws _ rfl hw).1, (uart_thread_sequence be ws _ rfl hw).2, ?_⟩
  intro pre w post hsplit
  have hpre : ∀ x ∈ pre, well_formed x := fun x hx =>
    hw x (by rw [hsplit]; exact List.mem_append_left _ hx)
  obtain ⟨hct, hlen, hp⟩ := hw w (by rw [hsplit]; exact List.mem_append_right _ (List.mem_cons_self _ _))
  obtain ⟨h0, hall⟩ := uart_thread_sequence be pre (uart_init stack) rfl hpre
  have hcount := hall.length_eq
  refine ⟨encode_wire_length be w, ?_, ?_, ?_⟩
  · intro k hk
    obtain ⟨hq1, hq2⟩ := uart_thread_command_prefix be
      (uart_thread be (uart_init stack) (encode_all be pre)).1 w.cmd_type w.payload w.c0 w.c1 k
      h0 hct hlen hk
    rw [uart_thread_append]
    simp only [encode_wire]
    rw [hq1, hq2, List.append_nil]
    exact ⟨hcount.symm, rfl⟩
  · obtain ⟨_, pkt, hp1, _⟩ := uart_thread_command_fields be
      (uart_thread be (uart_init stack) (encode_all be pre)).1 w.cmd_type w.payload w.c0 w.c1
      h0 hct hlen hp
    rw [uart_thread_append]
    simp only [encode_wire]
    rw [hp1, List.length_append, List.length_singleton, hcount]
  · obtain ⟨h1, _⟩ := uart_thread_command_fields be
      (uart_thread be (uart_init stack) (encode_all be pre)).1 w.cmd_type w.payload w.c0 w.c1
      h0 hct hlen hp
    rw [uart_thread_append]
    exact h1

/-- C19, at a HEALTH_CHECK command, a GPIO_WRITE command and a command with
the maximum of 1024 payload bytes, sent back to back. -/
theorem C19_back_to_back_witness :
    (uart_thread false (uart_init (fun _ => 0))
      (encode_all false [⟨5, [], 0, 0⟩, ⟨2, [5, 1], 0, 0⟩,
        ⟨3, List.replicate 1024 7, 0, 0⟩])).1.bytes_received = 0 ∧
    List.Forall₂ carries [⟨5, [], 0, 0⟩, ⟨2, [5, 1], 0, 0⟩, ⟨3, List.replicate 1024 7, 0, 0⟩]
      (uart_thread false (uart_init (fun _ => 0))
        (encode_all false [⟨5, [], 0, 0⟩, ⟨2, [5, 1], 0, 0⟩,
          ⟨3, List.replicate 1024 7, 0, 0⟩])).2 :=
  have h := C19_back_to_back false (fun _ => 0)
    [⟨5, [], 0, 0⟩, ⟨2, [5, 1], 0, 0⟩, ⟨3, List.replicate 1024 7, 0, 0⟩]
    (by
      intro w hw
      simp only [List.mem_cons, List.mem_singleton, List.mem_nil_iff, or_false] at hw
      rcases hw with rfl | rfl | rfl
      · decide
      · decide
      · refine ⟨by decide, (List.length_replicate 1024 7).le, ?_⟩
        intro b hb
        rw [List.eq_of_mem_replicate hb]
        decide)
  ⟨h.1, h.2.1⟩

/-! ## The bound on the accumulator -/

/-- C18: for every input byte stream, at the top of every iteration of the
loop of `uart_thread` the counter satisfies `bytes_received < sizeof(struct
zeroclaw_command)` = 1033, so the store `cmd_ptr[bytes_received]` is inside
`cmd`; and an iteration that brings the counter to 1033 leaves it at 0,
whether or not a command is enqueued in it. -/
theorem C18_accumulator_bound (be : Bool) (stack : Nat → Nat) (stream : List Nat) :
    sizeof_zeroclaw_command = 1033 ∧
    (uart_thread be (uart_init stack) stream).1.bytes_received < sizeof_zeroclaw_command ∧
    ∀ byte,
      (uart_step be (uart_thread be (uart_init stack) stream).1 byte).1.bytes_received
        < sizeof_zeroclaw_command ∧
      ((uart_thread be (uart_init stack) stream).1.bytes_received + 1 = sizeof_zeroclaw_command →
        (uart_step be (uart_thread be (uart_init stack) stream).1 byte).1.bytes_received = 0) := by
  have hinv := framer_inv_run be stream _ (framer_inv_init be stack)
  refine ⟨rfl, hinv.1, fun byte => ⟨(framer_inv_step be _ byte hinv).1, ?_⟩⟩
  intro hfull
  have hfull' : (uart_thread be (uart_init stack) stream).1.bytes_received + 1 = 1033 := hfull
  cases hput : complete be
      (poke (uart_thread be (uart_init stack) stream).1.cmd_ptr
        (uart_thread be (uart_init stack) stream).1.bytes_received byte)
      ((uart_thread be (uart_init stack) stream).1.bytes_received + 1)
  · rw [uart_step_quiet be _ byte hput]
    simp [hfull']
  · rw [uart_step_put be _ byte hput]

/-! ## The command queue: claims -/

theorem msgq_put_all_append : ∀ (l1 l2 : List zeroclaw_command) (q : List zeroclaw_command),
    msgq_put_all q (l1 ++ l2) =
      ((msgq_put_all (msgq_put_all q l1).1 l2).1,
       (msgq_put_all q l1).2 ++ (msgq_put_all (msgq_put_all q l1).1 l2).2)
  | [], _, _ => by simp [msgq_put_all]
  | c :: cs, l2, q => by
    rw [List.cons_append]
    simp only [msgq_put_all]
    rw [msgq_put_all_append cs l2]
    simp

theorem uart_step_msgq_eq (be : Bool) (s : FramerState) (q : List zeroclaw_command) (b : Nat) :
    uart_step_msgq be s q b =
      ((uart_step be s b).1, (msgq_put_all q (uart_step be s b).2).1,
       (msgq_put_all q (uart_step be s b).2).2) := by
  cases hput : complete be (poke s.cmd_ptr s.bytes_received b) (s.bytes_received + 1) <;>
    simp [uart_step_msgq, uart_step, hput, msgq_put_all]

/-- The loop with the queue in view is the loop of `uart_thread`, its commands
put into the queue one after the other: the return codes play no part. -/
theorem uart_thread_msgq_eq (be : Bool) : ∀ (L : List Nat) (s : FramerState)
    (q : List zeroclaw_command),
    uart_thread_msgq be s q L =
      ((uart_thread be s L).1, (msgq_put_all q (uart_thread be s L).2).1,
       (msgq_put_all q (uart_thread be s L).2).2)
  | [], _, _ => by simp [uart_thread_msgq, uart_thread, msgq_put_all]
  | b :: bs, s, q => by
    simp only [uart_thread_msgq, uart_thread]
    rw [uart_step_msgq_eq, uart_thread_msgq_eq be bs, msgq_put_all_append]

/-- While the queue has room every command is appended and every return code
is 0. -/
theorem msgq_put_all_room : ∀ (l q : List zeroclaw_command),
    q.length + l.length ≤ CMD_MSGQ_MAX_MSGS →
    msgq_put_all q l = (q ++ l, List.replicate l.length 0)
  | [], q, _ => by simp [msgq_put_all]
  | c :: cs, q, h => by
    simp only [List.length_cons] at h
    have hlt : q.length < CMD_MSGQ_MAX_MSGS := by omega
    simp only [msgq_put_all, k_msgq_put, hlt, if_true]
    rw [msgq_put_all_room cs (q ++ [c]) (by rw [List.length_append, List.length_singleton]; omega)]
    simp [List.replicate_succ]

/-- A put into a full queue leaves the queue as it is and returns
`-ENOMSG`. -/
theorem k_msgq_put_full (q : List zeroclaw_command) (c : zeroclaw_command)
    (h : q.length = CMD_MSGQ_MAX_MSGS) : k_msgq_put q c = (q, -ENOMSG) := by
  simp [k_msgq_put, h]

/-- Eleven puts into the empty queue: the first ten are held in order and
return 0, the eleventh returns `-ENOMSG`. -/
theorem msgq_put_all_eleven (e : List zeroclaw_command) (h : e.length = 11) :
    msgq_put_all [] e = (e.take 10, List.replicate 10 0 ++ [-ENOMSG]) := by
  have htl : (e.take 10).length = 10 := by rw [List.length_take, h]; rfl
  obtain ⟨c, hc⟩ : ∃ c, e.drop 10 = [c] := by
    apply List.length_eq_one.1
    rw [List.length_drop, h]
  have hs : e = e.take 10 ++ [c] := by
    rw [← hc]; exact (List.take_append_drop 10 e).symm
  generalize e.take 10 = t at hs htl ⊢
  subst hs
  rw [msgq_put_all_append, msgq_put_all_room t [] (by rw [htl]; simp [CMD_MSGQ_MAX_MSGS])]
  simp only [List.nil_append, msgq_put_all]
  rw [k_msgq_put_full t c htl, htl]

/-- C15: with the command queue a bounded FIFO of capacity N = 10, when N + 1
well-formed commands are framed before any dequeue, the queue holds the first
N in framing order, the put of the last returns at once with the nonzero code
`-ENOMSG` to its caller while the N before it returned 0, the last command
is in no slot, and the loop of `uart_thread` goes on from an empty
accumulator as it does after any command. -/
theorem C15_queue_full (be : Bool) (stack : Nat → Nat) (ws : List wire_command)
    (hn : ws.length = CMD_MSGQ_MAX_MSGS + 1) (hw : ∀ w ∈ ws, well_formed w) :
    List.Forall₂ carries (ws.take CMD_MSGQ_MAX_MSGS)
      (uart_thread_msgq be (uart_init stack) [] (encode_all be ws)).2.1 ∧
    (uart_thread_msgq be (uart_init stack) [] (encode_all be ws)).2.2 =
      List.replicate CMD_MSGQ_MAX_MSGS 0 ++ [-ENOMSG] ∧
    -ENOMSG ≠ 0 ∧
    (uart_thread_msgq be (uart_init stack) [] (encode_all be ws)).1.bytes_received = 0 ∧
    (uart_thread_msgq be (uart_init stack) [] (encode_all be ws)).1 =
      (uart_thread be (uart_init stack) (encode_all be ws)).1 := by
  obtain ⟨h0, hall⟩ := uart_thread_sequence be ws (uart_init stack) rfl hw
  have hlen : (uart_thread be (uart_init stack) (encode_all be ws)).2.length = 11 := by
    rw [← hall.length_eq, hn]; rfl
  have hput := msgq_put_all_eleven _ hlen
  rw [uart_thread_msgq_eq, hput]
  refine ⟨?_, rfl, by decide, h0, rfl⟩
  exact List.forall₂_take 10 hall

/-- C15, at eleven HEALTH_CHECK commands. -/
theorem C15_queue_full_witness :
    List.Forall₂ carries ((List.replicate 11 (⟨5, [], 0, 0⟩ : wire_command)).take CMD_MSGQ_MAX_MSGS)
      (uart_thread_msgq false (uart_init (fun _ => 0)) []
        (encode_all false (List.replicate 11 ⟨5, [], 0, 0⟩))).2.1 ∧
    (uart_thread_msgq false (uart_init (fun _ => 0)) []
        (encode_all false (List.replicate 11 ⟨5, [], 0, 0⟩))).2.2 =
      List.replicate CMD_MSGQ_MAX_MSGS 0 ++ [-ENOMSG] :=
  have h := C15_queue_full false (fun _ => 0) (List.replicate 11 ⟨5, [], 0, 0⟩) (by decide)
    (by
      intro w hw
      rw [List.eq_of_mem_replicate hw]
      decide)
  ⟨h.1, h.2.1⟩

/-! ## The dispatcher: status, identity and sensor -/

/-- The status of the response is the `int` of the dispatched operation,
narrowed to 8 bits. -/
theorem status_eq_dispatch_ret (env : Periph) (be : Bool) (board : List Nat)
    (cmd : zeroclaw_command) (resp : zeroclaw_response) :
    (process_zeroclaw_command env be board cmd resp).1.status = to_u8 (dispatch_ret env cmd) := by
  unfold process_zeroclaw_command dispatch_ret
  split_ifs <;> simp_all [to_u8] <;> split_ifs <;> simp_all

/-- The status is nonzero exactly when the `int` of the dispatched operation
is not a multiple of 256. -/
theorem status_ne_zero_iff (env : Periph) (be : Bool) (board : List Nat)
    (cmd : zeroclaw_command) (resp : zeroclaw_response) :
    (process_zeroclaw_command env be board cmd resp).1.status ≠ 0 ↔
      ¬ (256 : Int) ∣ dispatch_ret env cmd := by
  rw [status_eq_dispatch_ret, Ne, to_u8_eq_zero_iff]

/-- C11: a GPIO_WRITE command for pin 5, value 1, while `gpio_pin_set` fails
with the return code -256.  The wrapper returns the nonzero `int` -256, the
dispatched operation has failed, and the response has status 0, where the
claim has a nonzero status for every failed operation. -/
theorem C11_failed_write_status_zero :
    (zeroclaw_gpio_write (board_env 0 (-256)) 5 1).1 = -256 ∧
    dispatch_ret (board_env 0 (-256)) (mk_command 2 [5, 1]) ≠ 0 ∧
    (process_zeroclaw_command (board_env 0 (-256)) false [] (mk_command 2 [5, 1])
      resp_zero).1.status = 0 := by
  decide

/-- C13: a SENSOR_READ command while the sensor is there and
`sensor_sample_fetch` fails with the return code -256.  One fetch is made and
no channel get, `zeroclaw_sensor_read` returns -256, and the response has
status 0 and data_len 0, where the claim has a nonzero status. -/
theorem C13_failed_fetch_status_zero :
    (process_zeroclaw_command (sensor_env (-256) 0 ⟨21, 500000⟩) false [] (mk_command 3 [])
      resp_zero).2 = [Call.zeroclaw_sensor_read 0, Call.sensor_sample_fetch] ∧
    (zeroclaw_sensor_read (sensor_env (-256) 0 ⟨21, 500000⟩) 0 ⟨0, 0⟩).1 = -256 ∧
    (process_zeroclaw_command (sensor_env (-256) 0 ⟨21, 500000⟩) false [] (mk_command 3 [])
      resp_zero).1.status = 0 ∧
    (process_zeroclaw_command (sensor_env (-256) 0 ⟨21, 500000⟩) false [] (mk_command 3 [])
      resp_zero).1.data_len = 0 := by
  decide

/-- The SENSOR_READ contract as far as the code keeps it (cmd_type 0x03): with
the sensor absent no driver is called and the response has the status of
-ENODEV in 8 bits (237) and data_len 0; otherwise one `sensor_sample_fetch`
is made, and one `sensor_channel_get` after it only if the fetch returned 0.
When both return 0 the response has status 0, data_len 8 and the eight bytes
of the reading in data; when one of them fails it has data_len 0 and as
status the 8 low bits of the return code. -/
theorem sensor_read_contract (env : Periph) (be : Bool) (board : List Nat)
    (cmd : zeroclaw_command) (resp : zeroclaw_response) (ht : cmd.cmd_type = CMD_SENSOR_READ) :
    (env.sensor_dev = false →
      (process_zeroclaw_command env be board cmd resp).2 = [Call.zeroclaw_sensor_read 0] ∧
      (process_zeroclaw_command env be board cmd resp).1.status = 237 ∧
      (process_zeroclaw_command env be board cmd resp).1.data_len = 0) ∧
    (env.sensor_dev = true → env.sensor_sample_fetch ≠ 0 →
      (process_zeroclaw_command env be board cmd resp).2 =
        [Call.zeroclaw_sensor_read 0, Call.sensor_sample_fetch] ∧
      (process_zeroclaw_command env be board cmd resp).1.status = to_u8 env.sensor_sample_fetch ∧
      (process_zeroclaw_command env be board cmd resp).1.data_len = 0) ∧
    (env.sensor_dev = true → env.sensor_sample_fetch = 0 →
      (process_zeroclaw_command env be board cmd resp).2 =
        [Call.zeroclaw_sensor_read 0, Call.sensor_sample_fetch, Call.sensor_channel_get] ∧
      (env.sensor_channel_get.1 ≠ 0 →
        (process_zeroclaw_command env be board cmd resp).1.status =
          to_u8 env.sensor_channel_get.1 ∧
        (process_zeroclaw_command env be board cmd resp).1.data_len = 0) ∧
      (env.sensor_channel_get.1 = 0 →
        (process_zeroclaw_command env be board cmd resp).1.status = 0 ∧
        (process_zeroclaw_command env be board cmd resp).1.data_len = 8 ∧
        (sensor_value_bytes be env.sensor_channel_get.2).length = 8 ∧
        ∀ i (hi : i < (sensor_value_bytes be env.sensor_channel_get.2).length),
          (process_zeroclaw_command env be board cmd resp).1.data i =
            (sensor_value_bytes be env.sensor_channel_get.2)[i])) := by
  have hlen : ∀ v, (sensor_value_bytes be v).length = 8 := by
    intro v; cases be <;> simp [sensor_value_bytes, store_i32, store_u32]
  have hbytes : ∀ v, all_bytes (sensor_value_bytes be v) := by
    intro v b hb
    cases be <;>
      simp only [sensor_value_bytes, store_i32, store_u32, Bool.false_eq_true, if_false, if_true,
        List.cons_append, List.nil_append, List.mem_cons, List.mem_nil_iff, or_false] at hb <;>
      omega
  refine ⟨?_, ?_, ?_⟩
  · intro hdev
    simp [process_zeroclaw_command, ht, hdev, zeroclaw_sensor_read, CMD_SENSOR_READ,
      CMD_GPIO_READ, CMD_GPIO_WRITE, to_u8, ENODEV]
  · intro hdev hf
    simp [process_zeroclaw_command, ht, hdev, hf, zeroclaw_sensor_read, CMD_SENSOR_READ,
      CMD_GPIO_READ, CMD_GPIO_WRITE]
  · intro hdev hf
    refine ⟨?_, ?_, ?_⟩
    · by_cases hg : env.sensor_channel_get.1 = 0 <;>
        simp [process_zeroclaw_command, ht, hdev, hf, hg, zeroclaw_sensor_read, CMD_SENSOR_READ,
          CMD_GPIO_READ, CMD_GPIO_WRITE]
    · intro hg
      simp [process_zeroclaw_command, ht, hdev, hf, hg, zeroclaw_sensor_read, CMD_SENSOR_READ,
        CMD_GPIO_READ, CMD_GPIO_WRITE]
    · intro hg
      refine ⟨?_, ?_, hlen _, ?_⟩
      · simp [process_zeroclaw_command, ht, hdev, hf, hg, zeroclaw_sensor_read, CMD_SENSOR_READ,
          CMD_GPIO_READ, CMD_GPIO_WRITE]
      · simp [process_zeroclaw_command, ht, hdev, hf, hg, zeroclaw_sensor_read, CMD_SENSOR_READ,
          CMD_GPIO_READ, CMD_GPIO_WRITE]
      · intro i hi
        have hd : (process_zeroclaw_command env be board cmd resp).1.data =
            fill resp.data 0 (sensor_value_bytes be env.sensor_channel_get.2) := by
          simp [process_zeroclaw_command, ht, hdev, hf, hg, zeroclaw_sensor_read, CMD_SENSOR_READ,
            CMD_GPIO_READ, CMD_GPIO_WRITE]
        rw [hd]
        have := fill_get (sensor_value_bytes be env.sensor_channel_get.2) resp.data 0 i _
          (List.getElem?_eq_getElem hi)
        rw [Nat.zero_add] at this
        rw [this]
        exact Nat.mod_eq_of_lt (hbytes _ _ (List.getElem_mem hi))

/-- The SENSOR_READ contract at a reading of 21.5 degrees. -/
theorem sensor_read_contract_witness :
    (process_zeroclaw_command (sensor_env 0 0 ⟨21, 500000⟩) false [] (mk_command 3 [])
      resp_zero).1.status = 0 ∧
    (process_zeroclaw_command (sensor_env 0 0 ⟨21, 500000⟩) false [] (mk_command 3 [])
      resp_zero).1.data_len = 8 :=
  have h := ((sensor_read_contract (sensor_env 0 0 ⟨21, 500000⟩) false [] (mk_command 3 [])
    resp_zero (by decide)).2.2 rfl rfl).2.2 rfl
  ⟨h.1, h.2.1⟩

/-- What DEVICE_INFO leaves in data: the 2047 bytes that `strncpy` stores,
then the buffer as it was. -/
theorem device_info_data (env : Periph) (be : Bool) (board : List Nat)
    (cmd : zeroclaw_command) (resp : zeroclaw_response) (ht : cmd.cmd_type = CMD_DEVICE_INFO) :
    (process_zeroclaw_command env be board cmd resp).1.data =
      fill resp.data 0 (strncpy_bytes board (MAX_RESPONSE_SIZE - 1)) := by
  simp [process_zeroclaw_command, ht, CMD_DEVICE_INFO, CMD_GPIO_READ, CMD_GPIO_WRITE,
    CMD_SENSOR_READ]

/-- The DEVICE_INFO contract as far as the code keeps it (cmd_type 0x04): no
wrapper or driver is called, the status is 0, `strncpy` stores 2047 bytes
(the board string cut at 2047 bytes and padded with NULs), and data_len is the
16 low bits of the full length of the board string.  For a board string of at
most 2047 bytes data_len is its length and data[0..data_len) is the
string. -/
theorem device_info_contract (env : Periph) (be : Bool) (board : List Nat)
    (cmd : zeroclaw_command) (resp : zeroclaw_response) (ht : cmd.cmd_type = CMD_DEVICE_INFO) :
    (process_zeroclaw_command env be board cmd resp).2 = [] ∧
    (process_zeroclaw_command env be board cmd resp).1.status = 0 ∧
    (process_zeroclaw_command env be board cmd resp).1.data_len = to_u16 board.length ∧
    (strncpy_bytes board (MAX_RESPONSE_SIZE - 1)).length = 2047 ∧
    (board.length ≤ 2047 → all_bytes board →
      (process_zeroclaw_command env be board cmd resp).1.data_len = board.length ∧
      ∀ i (hi : i < board.length),
        (process_zeroclaw_command env be board cmd resp).1.data i = board[i]) := by
  have hd := device_info_data env be board cmd resp ht
  have hl : (process_zeroclaw_command env be board cmd resp).1.data_len = to_u16 board.length := by
    simp [process_zeroclaw_command, ht, CMD_DEVICE_INFO, CMD_GPIO_READ, CMD_GPIO_WRITE,
      CMD_SENSOR_READ]
  refine ⟨?_, ?_, hl, ?_, ?_⟩
  · simp [process_zeroclaw_command, ht, CMD_DEVICE_INFO, CMD_GPIO_READ, CMD_GPIO_WRITE,
      CMD_SENSOR_READ]
  · simp [process_zeroclaw_command, ht, CMD_DEVICE_INFO, CMD_GPIO_READ, CMD_GPIO_WRITE,
      CMD_SENSOR_READ]
  · simp only [strncpy_bytes, MAX_RESPONSE_SIZE, List.length_append, List.length_take,
      List.length_replicate]
    omega
  · intro hlen hbytes
    refine ⟨by rw [hl, to_u16]; exact Nat.mod_eq_of_lt (by omega), ?_⟩
    intro i hi
    rw [hd]
    have hget : (strncpy_bytes board (MAX_RESPONSE_SIZE - 1))[i]? = some board[i] := by
      simp only [strncpy_bytes, MAX_RESPONSE_SIZE]
      rw [List.take_of_length_le (by omega), List.getElem?_append_left hi]
      exact List.getElem?_eq_getElem hi
    have := fill_get _ resp.data 0 i _ hget
    rw [Nat.zero_add] at this
    rw [this]
    exact Nat.mod_eq_of_lt (hbytes _ (List.getElem_mem hi))

/-- The DEVICE_INFO contract at the board string "nrf52". -/
theorem device_info_contract_witness :
    (process_zeroclaw_command (board_env 0 0) false [0x6E, 0x72, 0x66, 0x35, 0x32]
      (mk_command 4 []) resp_zero).1.data_len = [0x6E, 0x72, 0x66, 0x35, 0x32].length ∧
    ∀ i (hi : i < [0x6E, 0x72, 0x66, 0x35, 0x32].length),
      (process_zeroclaw_command (board_env 0 0) false [0x6E, 0x72, 0x66, 0x35, 0x32]
        (mk_command 4 []) resp_zero).1.data i = [0x6E, 0x72, 0x66, 0x35, 0x32][i] :=
  (device_info_contract (board_env 0 0) false [0x6E, 0x72, 0x66, 0x35, 0x32] (mk_command 4 [])
    resp_zero (by decide)).2.2.2.2 (by decide) (by decide)

/-- C12: a DEVICE_INFO command on a board whose identity string is 2048 bytes
"A".  `strncpy` places 2047 bytes in data and leaves data[2047] as it was, yet
data_len is 2048: more than the bytes placed and more than
`MAX_RESPONSE_SIZE - 1`, where the claim has data_len equal to the number of
bytes placed and at most 2047. -/
theorem C12_long_board_data_len :
    (strncpy_bytes (List.replicate 2048 0x41) (MAX_RESPONSE_SIZE - 1)).length = 2047 ∧
    (process_zeroclaw_command (board_env 0 0) false (List.replicate 2048 0x41) (mk_command 4 [])
      resp_zero).1.status = 0 ∧
    (process_zeroclaw_command (board_env 0 0) false (List.replicate 2048 0x41) (mk_command 4 [])
      resp_zero).1.data_len = 2048 ∧
    (process_zeroclaw_command (board_env 0 0) false (List.replicate 2048 0x41) (mk_command 4 [])
      resp_zero).1.data 2047 = 0 := by
  have h := device_info_contract (board_env 0 0) false (List.replicate 2048 0x41)
    (mk_command 4 []) resp_zero rfl
  refine ⟨h.2.2.2.1, h.2.1, ?_, ?_⟩
  · rw [h.2.2.1, List.length_replicate]
    rfl
  · rw [device_info_data (board_env 0 0) false (List.replicate 2048 0x41) (mk_command 4 [])
      resp_zero rfl, fill_ge _ _ 0 2047 (by rw [h.2.2.2.1])]
    rfl

/-! ## The responder: claims -/

/-- C14 fails: two response packets with the same header (status 0,
data_len 1) and the same payload byte 01, whose data buffers differ at the
indices 1 and 2.  The frames handed to `uart_tx` end in data[1], data[2] of
the buffer: bytes of the data buffer at indices not below data_len, and not a
checksum of header and payload, which are the same in both. -/
theorem C14_counterexample :
    tx_frame false (mk_response 0 1 [1, 0xAA, 0xBB]) =
      [0x4F, 0x52, 0x45, 0x5A, 0, 1, 0, 1, 0xAA, 0xBB] ∧
    tx_frame false (mk_response 0 1 [1, 0xCC, 0xDD]) =
      [0x4F, 0x52, 0x45, 0x5A, 0, 1, 0, 1, 0xCC, 0xDD] := by
  decide

theorem tx_frame_length (be : Bool) (resp : zeroclaw_response) :
    (tx_frame be resp).length = 9 + resp.data_len := by
  simp [tx_frame, uart_tx, sizeof_zeroclaw_response, MAX_RESPONSE_SIZE]

theorem tx_frame_getElem (be : Bool) (resp : zeroclaw_response) (i : Nat)
    (hi : i < (tx_frame be resp).length) :
    (tx_frame be resp)[i] = resp_to_bytes be resp i := by
  simp [tx_frame, uart_tx]

/-- C14, amended: for every response packet with data_len at most
`MAX_RESPONSE_SIZE`, the byte sequence that `cmd_processor_thread` hands to
`uart_tx` has `9 + data_len` bytes; the first 7 are the header (magic, status,
data_len), the next data_len are the first data_len bytes of data.  No
checksum is computed. -/
theorem C14_frame_header_and_payload (be : Bool) (resp : zeroclaw_response)
    (hlen : resp.data_len ≤ MAX_RESPONSE_SIZE) :
    (tx_frame be resp).length = 9 + resp.data_len ∧
    (tx_frame be resp).take 7 =
      store_u32 be resp.magic ++ [resp.status] ++ store_u16 be resp.data_len ∧
    ((tx_frame be resp).drop 7).take resp.data_len = (List.range resp.data_len).map resp.data := by
  have hL := tx_frame_length be resp
  refine ⟨hL, ?_, ?_⟩
  · apply List.ext_getElem
    · rw [List.length_take, hL]
      cases be <;> simp [store_u32, store_u16] <;> omega
    · intro i h1 h2
      rw [List.getElem_take, tx_frame_getElem]
      have hi7 : i < 7 := by
        rw [List.length_take] at h1
        omega
      symm
      rw [List.getElem_eq_iff]
      clear h1 h2
      interval_cases i <;> cases be <;> simp [resp_to_bytes, store_u32, store_u16]
  · apply List.ext_getElem
    · rw [List.length_take, List.length_drop, hL, List.length_map, List.length_range]
      omega
    · intro i h1 h2
      rw [List.length_map, List.length_range] at h2
      rw [List.getElem_take, List.getElem_drop, tx_frame_getElem, List.getElem_map,
        List.getElem_range]
      have h7 : ¬ (7 + i < 4) := by omega
      have h4 : ¬ (7 + i = 4) := by omega
      have h77 : ¬ (7 + i < 7) := by omega
      have hd : 7 + i < 7 + MAX_RESPONSE_SIZE := by omega
      simp only [resp_to_bytes, h7, h4, h77, hd, if_false, if_true]
      rw [Nat.add_sub_cancel_left]

/-- C14 amended, at a HEALTH_CHECK response. -/
theorem C14_frame_header_and_payload_witness :
    (tx_frame false (mk_response 0 1 [1, 0xAA, 0xBB])).length = 9 + 1 ∧
    (tx_frame false (mk_response 0 1 [1, 0xAA, 0xBB])).take 7 =
      store_u32 false ZEROCLAW_MAGIC ++ [0] ++ store_u16 false 1 ∧
    ((tx_frame false (mk_response 0 1 [1, 0xAA, 0xBB])).drop 7).take 1 =
      (List.range 1).map (mk_response 0 1 [1, 0xAA, 0xBB]).data :=
  C14_frame_header_and_payload false (mk_response 0 1 [1, 0xAA, 0xBB]) (by decide)

theorem fill_indep (L : List Nat) (b1 b2 : Nat → Nat) (c i : Nat) (h1 : c ≤ i)
    (h2 : i < c + L.length) : fill b1 c L i = fill b2 c L i := by
  obtain ⟨j, rfl⟩ : ∃ j, i = c + j := ⟨i - c, by omega⟩
  have hj : j < L.length := by omega
  rw [fill_get L b1 c j _ (List.getElem?_eq_getElem hj),
    fill_get L b2 c j _ (List.getElem?_eq_getElem hj)]

/-- Magic, status, data_len of the response and the calls made do not depend
on what the response buffer held before. -/
theorem process_header_indep (env : Periph) (be : Bool) (board : List Nat)
    (cmd : zeroclaw_command) (r1 r2 : zeroclaw_response) :
    (process_zeroclaw_command env be board cmd r1).1.magic =
      (process_zeroclaw_command env be board cmd r2).1.magic ∧
    (process_zeroclaw_command env be board cmd r1).1.status =
      (process_zeroclaw_command env be board cmd r2).1.status ∧
    (process_zeroclaw_command env be board cmd r1).1.data_len =
      (process_zeroclaw_command env be board cmd r2).1.data_len ∧
    (process_zeroclaw_command env be board cmd r1).2 =
      (process_zeroclaw_command env be board cmd r2).2 := by
  unfold process_zeroclaw_command
  split_ifs <;> simp <;> split_ifs <;> simp

/-- The first data_len bytes of data do not depend on what the response
buffer held before, the board string being at most 2047 bytes. -/
theorem process_payload_indep (env : Periph) (be : Bool) (board : List Nat)
    (cmd : zeroclaw_command) (r1 r2 : zeroclaw_response) (hb : board.length ≤ 2047) (i : Nat)
    (hi : i < (process_zeroclaw_command env be board cmd r1).1.data_len) :
    (process_zeroclaw_command env be board cmd r1).1.data i =
      (process_zeroclaw_command env be board cmd r2).1.data i := by
  have h8 : ∀ v, (sensor_value_bytes be v).length = 8 := by
    intro v; cases be <;> simp [sensor_value_bytes, store_i32, store_u32]
  have hs : (strncpy_bytes board (MAX_RESPONSE_SIZE - 1)).length = 2047 := by
    simp only [strncpy_bytes, MAX_RESPONSE_SIZE, List.length_append, List.length_take,
      List.length_replicate]
    omega
  simp only [process_zeroclaw_command] at hi ⊢
  split_ifs at hi ⊢ <;> simp only [Nat.not_lt_zero] at hi
  · have : i = 0 := by omega
    subst this
    simp [poke]
  · exact fill_indep _ _ _ 0 i (Nat.zero_le _) (by rw [h8]; omega)
  · refine fill_indep _ _ _ 0 i (Nat.zero_le _) ?_
    rw [hs]
    simp only [to_u16] at hi
    have := Nat.mod_le board.length 65536
    omega
  · have : i = 0 := by omega
    subst this
    simp [poke]

/-- The data_len of a response is at most 2047, the board string being at
most 2047 bytes. -/
theorem process_data_len_le (env : Periph) (be : Bool) (board : List Nat)
    (cmd : zeroclaw_command) (resp : zeroclaw_response) (hb : board.length ≤ 2047) :
    (process_zeroclaw_command env be board cmd resp).1.data_len ≤ 2047 := by
  have := Nat.mod_le board.length 65536
  simp only [process_zeroclaw_command, to_u16]
  split_ifs <;> simp only <;> omega

/-- What holds of C16: for a board string of at most 2047 bytes, the header
and the payload of the frame handed to `uart_tx`, its first `7 + data_len`
bytes, are the same whatever the response buffer held before; only the last
two bytes of a frame depend on earlier responses. -/
theorem frame_prefix_stateless (env : Periph) (be : Bool) (board : List Nat)
    (cmd : zeroclaw_command) (r1 r2 : zeroclaw_response) (hb : board.length ≤ 2047) :
    (tx_frame be (process_zeroclaw_command env be board cmd r1).1).length =
      (tx_frame be (process_zeroclaw_command env be board cmd r2).1).length ∧
    (tx_frame be (process_zeroclaw_command env be board cmd r1).1).take
        (7 + (process_zeroclaw_command env be board cmd r1).1.data_len) =
      (tx_frame be (process_zeroclaw_command env be board cmd r2).1).take
        (7 + (process_zeroclaw_command env be board cmd r1).1.data_len) := by
  obtain ⟨hm, hst, hdl, _⟩ := process_header_indep env be board cmd r1 r2
  have hL1 := tx_frame_length be (process_zeroclaw_command env be board cmd r1).1
  have hL2 := tx_frame_length be (process_zeroclaw_command env be board cmd r2).1
  refine ⟨by rw [hL1, hL2, hdl], ?_⟩
  apply List.ext_getElem
  · rw [List.length_take, List.length_take, hL1, hL2, hdl]
  · intro i h1 h2
    rw [List.length_take, hL1] at h1
    rw [List.getElem_take, List.getElem_take, tx_frame_getElem, tx_frame_getElem]
    unfold resp_to_bytes
    rw [hm, hst, hdl]
    have hle := process_data_len_le env be board cmd r1 hb
    split_ifs with a b c d
    · rfl
    · rfl
    · rfl
    · exact process_payload_indep env be board cmd r1 r2 hb (i - 7) (by omega)
    · simp only [MAX_RESPONSE_SIZE] at d
      omega

/-- C16: the same GPIO_WRITE command with one payload byte (answered with the
status of -EINVAL and data_len 0, no peripheral touched), once as the first
command after start with the response buffer all zero, once after a
GPIO_READ of pin 5 that read the level 1.  The two frames handed to `uart_tx`
for it differ: the second carries the byte 01 of the earlier response. -/
theorem C16_earlier_response_leaks :
    (cmd_processor_thread (board_env 1 0) false [] resp_zero [mk_command 2 [5]]).2.2 =
      [[0x4F, 0x52, 0x45, 0x5A, 234, 0, 0, 0, 0]] ∧
    (cmd_processor_thread (board_env 1 0) false [] resp_zero
        [mk_command 1 [5], mk_command 2 [5]]).2.2 =
      [[0x4F, 0x52, 0x45, 0x5A, 0, 1, 0, 1, 0, 0],
       [0x4F, 0x52, 0x45, 0x5A, 234, 0, 0, 1, 0]] ∧
    tx_frame false (process_zeroclaw_command (board_env 1 0) false [] (mk_command 2 [5])
        (mk_response 0 0 [0xAA, 0xBB])).1 =
      [0x4F, 0x52, 0x45, 0x5A, 234, 0, 0, 0xAA, 0xBB] := by
  decide

end ZeroClaw
